import Mathlib

/-!
# spiffe-helper sidecar: a shallow embedding of `pkg/sidecar`

The development follows `pkg/sidecar/sidecar.go` and `pkg/sidecar/config.go`.
Go strings are Lean strings; the characters the code inspects (space, double
quote, line feed, carriage return) are ASCII, so working on characters and
working on bytes agree.
-/

namespace SpiffeHelper

/-! ## Go error values -/

/-- Error values that the package produces or passes on. -/
inductive GoError where
  /-- The value `io.EOF`. -/
  | eof
  /-- A `*csv.ParseError` carrying `csv.ErrBareQuote` (position dropped). -/
  | csvBareQuote
  /-- A `*csv.ParseError` carrying `csv.ErrQuote` (position dropped). -/
  | csvQuote
  /-- The recursion budget of the csv model ran out (shown never to happen). -/
  | csvFuel
  /-- An error made by `errors.New msg` or `fmt.Errorf msg`. -/
  | new (msg : String)
  /-- An error made by `fmt.Errorf` with the verb `%w`: the text `msg` followed
  by the wrapped `cause`. -/
  | wrap (msg : String) (cause : GoError)
  /-- An error reported by the operating system or by a callback. -/
  | external (msg : String)
  deriving DecidableEq, Repr

deriving instance DecidableEq for Except

/-! ## `encoding/csv`, as `getCmdArgs` configures it

`getCmdArgs` builds `csv.NewReader(strings.NewReader(args))`, sets
`Comma = ' '` and calls `Read` once.  All other reader options keep their zero
value: no comment character, `LazyQuotes = false`, `TrimLeadingSpace = false`,
`FieldsPerRecord = 0`.  The definitions below follow `Reader.readLine` and
`Reader.readRecord` of the Go standard library for that configuration.
-/

namespace csv

/-- Go `lengthNL`: 1 when the slice ends in a line feed, else 0. -/
def lengthNL (b : List Char) : Nat :=
  if b.getLast? = some '\n' then 1 else 0

/-- Go `bytes.IndexByte`: position of the first occurrence, `none` for -1. -/
def indexByte : List Char → Char → Option Nat
  | [], _ => none
  | x :: xs, c => if x = c then some 0 else (indexByte xs c).map (· + 1)

/-- Go `bufio.Reader.ReadSlice('\n')` on an in-memory reader: the bytes up to and
including the first line feed, whether a line feed was found, and the unread
rest. -/
def readSlice : List Char → List Char × Bool × List Char
  | [] => ([], false, [])
  | c :: cs =>
    if c = '\n' then ([c], true, cs)
    else
      let r := readSlice cs
      (c :: r.1, r.2.1, r.2.2)

/-- Go `Reader.readLine`: the next line, the read error (`io.EOF` or nil) and
the unread rest.  A trailing carriage return before the end of the input is
dropped and a final `\r\n` becomes `\n`. -/
def readLine (input : List Char) : List Char × Option GoError × List Char :=
  let r := readSlice input
  let line := r.1
  let err : Option GoError := if r.2.1 then none else some GoError.eof
  let dropCR := decide (0 < line.length) && decide (err = some GoError.eof)
  let err := if dropCR then none else err
  let line := if dropCR && decide (line.getLast? = some '\r') then line.dropLast else line
  let n := line.length
  let line :=
    if 2 ≤ n ∧ line.get? (n - 2) = some '\r' ∧ line.get? (n - 1) = some '\n' then
      line.take (n - 2) ++ ['\n']
    else line
  (line, err, r.2.2)

/-- The loop at the head of `readRecord`: read lines until one is not empty or
the read fails.  `none` stands for an exhausted recursion budget. -/
def nextLine : Nat → List Char → Option (List Char × Option GoError × List Char)
  | 0, _ => none
  | fuel + 1, input =>
    let r := readLine input
    if r.2.1 = none ∧ r.1.length = lengthNL r.1 then nextLine fuel r.2.2
    else some r

/-- The `parseField` loop of `readRecord`.  `quoted = false` is the head of the
loop (a new field starts at `line`); `quoted = true` is the inner loop of a
quoted field whose bytes so far are `buf`.  `input` is what the reader has not
read yet and `fields` are the fields completed so far. -/
def parseField (comma : Char) :
    Nat → Bool → List Char → List Char → List Char → List (List Char) →
      Except GoError (List (List Char))
  | 0, _, _, _, _, _ => Except.error GoError.csvFuel
  | fuel + 1, false, line, input, _, fields =>
    if line.head? = some '"' then
      -- quoted string field: skip the opening quote
      parseField comma fuel true (line.drop 1) input [] fields
    else
      -- non-quoted string field
      match indexByte line comma with
      | some i =>
        let field := line.take i
        if (indexByte field '"').isSome then Except.error GoError.csvBareQuote
        else parseField comma fuel false (line.drop (i + 1)) input [] (fields ++ [field])
      | none =>
        let field := line.take (line.length - lengthNL line)
        if (indexByte field '"').isSome then Except.error GoError.csvBareQuote
        else Except.ok (fields ++ [field])
  | fuel + 1, true, line, input, buf, fields =>
    match indexByte line '"' with
    | some i =>
      -- hit the next quote
      let buf := buf ++ line.take i
      let line := line.drop (i + 1)
      if line.head? = some '"' then
        parseField comma fuel true (line.drop 1) input (buf ++ ['"']) fields
      else if line.head? = some comma then
        parseField comma fuel false (line.drop 1) input [] (fields ++ [buf])
      else if lengthNL line = line.length then
        Except.ok (fields ++ [buf])
      else Except.error GoError.csvQuote
    | none =>
      if 0 < line.length then
        -- end of line inside the quotes: copy it and read the next line
        let r := readLine input
        parseField comma fuel true r.1 r.2.2 (buf ++ line) fields
      else
        -- abrupt end of the input
        Except.error GoError.csvQuote

/-- Go `Reader.Read` on a fresh reader over `input` with the given `Comma`: the
first record, or the error. -/
def Read (comma : Char) (input : List Char) : Except GoError (List (List Char)) :=
  match nextLine (input.length + 1) input with
  | none => Except.error GoError.csvFuel
  | some (line, errRead, rest) =>
    if errRead = some GoError.eof then Except.error GoError.eof
    else parseField comma (input.length + 1) false line rest [] []

end csv

/-- Go `getCmdArgs`: split the command line arguments at spaces, except when
the space is inside quotation marks. -/
def getCmdArgs (args : String) : Except GoError (List String) :=
  if args = "" then Except.ok []
  else
    match csv.Read ' ' args.data with
    | Except.error err => Except.error err
    | Except.ok cmdArgs => Except.ok (cmdArgs.map String.mk)

/-! ## Configuration (`config.go`) -/

/-- Go `Config`.  `ReloadExternalProcess` is the optional reload callback: the
function gives the error (or nil) that its `k`-th invocation returns.  `Log` is
the logger, nil or the list of the warnings it has been handed by `Warnf`. -/
structure Config where
  AgentAddress : String := ""
  AgentAddressDeprecated : String := ""
  Cmd : String := ""
  CmdArgs : String := ""
  CmdArgsDeprecated : String := ""
  CertDir : String := ""
  CertDirDeprecated : String := ""
  AddIntermediatesToBundle : Bool := false
  AddIntermediatesToBundleDeprecated : Bool := false
  SvidFileName : String := ""
  SvidFileNameDeprecated : String := ""
  SvidKeyFileName : String := ""
  SvidKeyFileNameDeprecated : String := ""
  SvidBundleFileName : String := ""
  SvidBundleFileNameDeprecated : String := ""
  RenewSignal : String := ""
  RenewSignalDeprecated : String := ""
  ReloadExternalProcess : Option (Nat → Option GoError) := none
  Log : Option (List String) := none

/-- Go `GetWarning`. -/
def GetWarning (s1 s2 : String) : String :=
  s1 ++ " will be deprecated, should be used as " ++ s2

/-- The call `c.Log.Warnf(format)` on a non-nil logger: the format is recorded
(as `fakeLogger.Warnf` does). -/
def Warnf (c : Config) (format : String) : Config :=
  { c with Log := some (c.Log.getD [] ++ [format]) }

namespace ValidateConfig

/-- Lines 80-86 of `ValidateConfig`: the agent address. -/
def agentAddress (c : Config) : Config × Option GoError :=
  if c.AgentAddressDeprecated ≠ "" then
    if c.AgentAddress ≠ "" then (c, some (GoError.new "duplicated agentAddress"))
    else
      let c := Warnf c (GetWarning "agentAddress" "agent_address")
      ({ c with AgentAddress := c.AgentAddressDeprecated }, none)
  else (c, none)

/-- Lines 88-94 of `ValidateConfig`: the command arguments. -/
def cmdArgs (c : Config) : Config × Option GoError :=
  if c.CmdArgsDeprecated ≠ "" then
    if c.CmdArgs ≠ "" then (c, some (GoError.new "duplicated CmdArgs"))
    else
      let c := Warnf c (GetWarning "cmdArgs" "cmd_args")
      ({ c with CmdArgs := c.CmdArgsDeprecated }, none)
  else (c, none)

/-- Lines 96-102 of `ValidateConfig`: the certificate directory. -/
def certDir (c : Config) : Config × Option GoError :=
  if c.CertDirDeprecated ≠ "" then
    if c.CertDir ≠ "" then (c, some (GoError.new "duplicated CertDir"))
    else
      let c := Warnf c (GetWarning "certDir" "cert_dir")
      ({ c with CertDir := c.CertDirDeprecated }, none)
  else (c, none)

/-- Lines 104-110 of `ValidateConfig`: the SVID file name. -/
def svidFileName (c : Config) : Config × Option GoError :=
  if c.SvidFileNameDeprecated ≠ "" then
    if c.SvidFileName ≠ "" then (c, some (GoError.new "duplicated SvidFileName"))
    else
      let c := Warnf c (GetWarning "svidFileName" "svid_file_name")
      ({ c with SvidFileName := c.SvidFileNameDeprecated }, none)
  else (c, none)

/-- Lines 112-118 of `ValidateConfig`: the key file name. -/
def svidKeyFileName (c : Config) : Config × Option GoError :=
  if c.SvidKeyFileNameDeprecated ≠ "" then
    if c.SvidKeyFileName ≠ "" then (c, some (GoError.new "duplicated SvidKeyFileName"))
    else
      let c := Warnf c (GetWarning "svidKeyFileName" "svid_key_file_name")
      ({ c with SvidKeyFileName := c.SvidKeyFileNameDeprecated }, none)
  else (c, none)

/-- Lines 120-127 of `ValidateConfig`: the bundle file name. -/
def svidBundleFileName (c : Config) : Config × Option GoError :=
  if c.SvidBundleFileNameDeprecated ≠ "" then
    if c.SvidBundleFileName ≠ "" then (c, some (GoError.new "duplicated SvidBundleFileName"))
    else
      let c := Warnf c (GetWarning "svidBundleFileName" "svid_bundle_file_name")
      ({ c with SvidBundleFileName := c.SvidBundleFileNameDeprecated }, none)
  else (c, none)

/-- Lines 129-135 of `ValidateConfig`: the renew signal. -/
def renewSignal (c : Config) : Config × Option GoError :=
  if c.RenewSignalDeprecated ≠ "" then
    if c.RenewSignal ≠ "" then (c, some (GoError.new "duplicated RenewSignal"))
    else
      let c := Warnf c (GetWarning "renewSignal" "renew_signal")
      ({ c with RenewSignal := c.RenewSignalDeprecated }, none)
  else (c, none)

/-- Lines 137-148 of `ValidateConfig`: the required fields. -/
def required (c : Config) : Config × Option GoError :=
  if c.AgentAddress = "" then (c, some (GoError.new "agentAddress is required"))
  else if c.SvidFileName = "" then (c, some (GoError.new "svidFileName is required"))
  else if c.SvidKeyFileName = "" then (c, some (GoError.new "svidKeyFileName is required"))
  else if c.SvidBundleFileName = "" then
    (c, some (GoError.new "svidBundleFileName is required"))
  else (c, none)

/-- Sequencing with early return: run `k` on the configuration unless an error
has been returned already. -/
def andThen (r : Config × Option GoError) (k : Config → Config × Option GoError) :
    Config × Option GoError :=
  match r.2 with
  | some _ => r
  | none => k r.1

end ValidateConfig

/-- Go `ValidateConfig`.  The configuration is changed in place, so the result
is the configuration as the call leaves it together with the returned error.
`validateOSConfig` is defined per operating system outside the two files at
hand and is a parameter: a check that reports an error or nil. -/
def ValidateConfig (validateOSConfig : Config → Option GoError) (c : Config) :
    Config × Option GoError :=
  match validateOSConfig c with
  | some err => (c, some err)
  | none =>
    let c := if c.Log.isNone then { c with Log := some [] } else c
    ValidateConfig.andThen (ValidateConfig.agentAddress c) fun c =>
    ValidateConfig.andThen (ValidateConfig.cmdArgs c) fun c =>
    ValidateConfig.andThen (ValidateConfig.certDir c) fun c =>
    ValidateConfig.andThen (ValidateConfig.svidFileName c) fun c =>
    ValidateConfig.andThen (ValidateConfig.svidKeyFileName c) fun c =>
    ValidateConfig.andThen (ValidateConfig.svidBundleFileName c) fun c =>
    ValidateConfig.andThen (ValidateConfig.renewSignal c) fun c =>
    ValidateConfig.required c

/-! ## Identity updates (`workloadapi.X509Context`) -/

/-- A byte string. -/
abbrev Bytes := List Nat

/-- An `*x509.Certificate`, of which the code reads only `Raw`. -/
structure Certificate where
  Raw : Bytes
  deriving DecidableEq, Repr

/-- A `spiffeid.ID`: trust domain name and path. -/
structure ID where
  td : String
  path : String
  deriving DecidableEq, Repr

/-- Go `ID.TrustDomain`. -/
def ID.TrustDomain (id : ID) : String := id.td

/-- An `*x509svid.SVID`: the identity, the chain (leaf first) and the key. -/
structure SVID where
  ID : ID
  Certificates : List Certificate
  PrivateKey : Bytes
  deriving DecidableEq, Repr

/-- An `*x509bundle.Bundle`: the trust anchors of one trust domain. -/
structure Bundle where
  x509Authorities : List Certificate
  deriving DecidableEq, Repr

/-- Go `Bundle.X509Authorities`: a copy of the trust anchors, in order. -/
def Bundle.X509Authorities (b : Bundle) : List Certificate := b.x509Authorities

/-- A `*workloadapi.X509Context`.  `Bundles` is the `x509bundle.Set`, a map from
trust domain to bundle, given by its lookup `Get`. -/
structure X509Context where
  SVIDs : List SVID
  Bundles : String → Option Bundle

/-- Go `X509Context.DefaultSVID`, that is `x.SVIDs[0]`; `none` when the index is
out of range (the Go call panics). -/
def X509Context.DefaultSVID (x : X509Context) : Option SVID := x.SVIDs.head?

/-! ## The world around the sidecar -/

/-- A file: its content and its permission bits. -/
structure File where
  data : Bytes
  perm : Nat
  deriving DecidableEq, Repr

/-- A `pem.Block` without headers. -/
structure PemBlock where
  type : String
  bytes : Bytes
  deriving DecidableEq, Repr

/-- A failing `os.WriteFile`: the error and what the call leaves at the path. -/
structure WriteFault where
  err : GoError
  left : Option File

/-- Library and operating system behaviour that the package relies on.  The
outcome of the `k`-th call of an operation that can fail is given by index. -/
structure Env where
  /-- Go `path.Join` of two elements. -/
  pathJoin : String → String → String
  /-- Go `pem.EncodeToMemory`. -/
  encodeToMemory : PemBlock → Bytes
  /-- Go `x509.MarshalPKCS8PrivateKey`. -/
  marshalPKCS8PrivateKey : Bytes → Except GoError Bytes
  /-- The process umask, applied when `os.WriteFile` creates a file. -/
  umask : Nat
  /-- Outcome of the `k`-th `os.WriteFile`: `none` when it succeeds. -/
  writeFault : Nat → Option WriteFault
  /-- Outcome of the `k`-th `cmd.Start`: `none` when it succeeds. -/
  startFault : Nat → Option GoError
  /-- Outcome of the `k`-th signal delivery: `none` when it succeeds. -/
  signalFault : Nat → Option GoError

/-- A `checkProcessExit` goroutine: created by the `go` statement and not yet
run, or blocked in `Wait` on a child after having stored 1. -/
inductive Watcher where
  | spawned
  | waiting (pid : Nat)
  deriving DecidableEq, Repr

/-- Everything outside the `Sidecar` struct that the code acts on. -/
structure World where
  /-- The file system: path to file. -/
  files : String → Option File
  /-- Number of `os.WriteFile` calls made. -/
  writes : Nat
  /-- Number of `cmd.Start` calls made. -/
  startCalls : Nat
  /-- Child processes started, oldest first: command and arguments.  The
  position in the list serves as process id. -/
  children : List (String × List String)
  /-- Process ids of the children that have exited. -/
  exited : List Nat
  /-- Number of `SignalProcess` calls made. -/
  signalCalls : Nat
  /-- Signals delivered, oldest first: target process and signal name. -/
  delivered : List (Option Nat × String)
  /-- Number of invocations of the reload callback. -/
  hookCalls : Nat
  /-- The `checkProcessExit` goroutines alive, oldest first. -/
  watchers : List Watcher

/-- A buffered channel of `struct{}`: capacity and number of buffered elements. -/
structure Chan where
  cap : Nat
  len : Nat
  deriving DecidableEq, Repr

/-- Go `Sidecar`. -/
structure Sidecar where
  config : Config
  processRunning : Nat
  process : Option Nat
  certReadyChan : Chan

/-- The sidecar together with its surroundings. -/
structure State where
  s : Sidecar
  w : World

/-- The result of a Go call that returns an `error` and may panic instead. -/
inductive Ret where
  | nil
  | error (err : GoError)
  | panic (msg : String)
  deriving DecidableEq, Repr

/-- Go constant `certsFileMode`. -/
def certsFileMode : Nat := 0o644

/-- Go constant `keyFileMode`. -/
def keyFileMode : Nat := 0o600

/-- Go constant `defaultAgentAddress`. -/
def defaultAgentAddress : String := "/tmp/spire-agent/public/api.sock"

/-- Go `os.WriteFile`: on success an existing file gets the new content and
keeps its permissions, a new file is created with `perm` less the umask. -/
def WriteFile (env : Env) (w : World) (name : String) (data : Bytes) (perm : Nat) :
    World × Option GoError :=
  let k := w.writes
  match env.writeFault k with
  | some fault =>
    ({ w with writes := k + 1,
              files := fun p => if p = name then fault.left else w.files p },
     some fault.err)
  | none =>
    let file : File :=
      match w.files name with
      | some old => { data := data, perm := old.perm }
      | none => { data := data, perm := perm &&& (0o777 ^^^ env.umask) }
    ({ w with writes := k + 1,
              files := fun p => if p = name then some file else w.files p },
     none)

/-! ## `sidecar.go` -/

/-- Go `writeCerts`: encode the certificates as PEM blocks and write them. -/
def writeCerts (env : Env) (w : World) (file : String) (certs : List Certificate) :
    World × Option GoError :=
  let pemData : Bytes :=
    certs.foldl
      (fun pemData cert =>
        pemData ++ env.encodeToMemory { type := "CERTIFICATE", bytes := cert.Raw })
      []
  WriteFile env w file pemData certsFileMode

/-- Go `writeKey`: format the key as PEM and write it. -/
def writeKey (env : Env) (w : World) (file : String) (data : Bytes) :
    World × Option GoError :=
  WriteFile env w file (env.encodeToMemory { type := "EC PRIVATE KEY", bytes := data })
    keyFileMode

/-- Lines 165-169 of `dumpBundles`: with `addIntermediates` the intermediates
move from the chain to the bundle.  `none` when `certs[1:]` is out of range
(the Go code panics on an empty chain). -/
def dumpBundles.split (addIntermediates : Bool) (bundles certs : List Certificate) :
    Option (List Certificate × List Certificate) :=
  if addIntermediates then
    match certs with
    | [] => none
    | leaf :: intermediates => some (bundles ++ intermediates, [leaf])
  else some (bundles, certs)

/-- Go `Sidecar.dumpBundles`: write the svid, the key and the bundle. -/
def dumpBundles (env : Env) (st : State) (svidResponse : X509Context) : State × Ret :=
  match svidResponse.DefaultSVID with
  | none => (st, Ret.panic "index out of range [0] with length 0")
  | some svid =>
    let svidFile := env.pathJoin st.s.config.CertDir st.s.config.SvidFileName
    let svidKeyFile := env.pathJoin st.s.config.CertDir st.s.config.SvidKeyFileName
    let svidBundleFile := env.pathJoin st.s.config.CertDir st.s.config.SvidBundleFileName
    let certs := svid.Certificates
    match svidResponse.Bundles svid.ID.TrustDomain with
    | none =>
      (st, Ret.error
        (GoError.new ("no bundles found for " ++ svid.ID.TrustDomain ++ " trust domain")))
    | some bundleSet =>
      let bundles := bundleSet.X509Authorities
      match env.marshalPKCS8PrivateKey svid.PrivateKey with
      | Except.error err => (st, Ret.error err)
      | Except.ok privateKey =>
        match dumpBundles.split st.s.config.AddIntermediatesToBundle bundles certs with
        | none => (st, Ret.panic "slice bounds out of range [1:0]")
        | some (bundles, certs) =>
          match writeCerts env st.w svidFile certs with
          | (w, some err) => ({ st with w := w }, Ret.error err)
          | (w, none) =>
            match writeKey env w svidKeyFile privateKey with
            | (w, some err) => ({ st with w := w }, Ret.error err)
            | (w, none) =>
              match writeCerts env w svidBundleFile bundles with
              | (w, some err) => ({ st with w := w }, Ret.error err)
              | (w, none) => ({ st with w := w }, Ret.nil)

/-- Modelled from the spec: `Sidecar.SignalProcess`, whose definition is in an
operating-system specific file that is not at hand.  The spec says of it:
"deliver the configured reload signal to the existing child instead of starting
a new one. Failure to deliver the signal is returned to the caller." -/
def SignalProcess (env : Env) (st : State) : State × Option GoError :=
  let k := st.w.signalCalls
  match env.signalFault k with
  | some err => ({ st with w := { st.w with signalCalls := k + 1 } }, some err)
  | none =>
    ({ st with w := { st.w with
        signalCalls := k + 1,
        delivered := st.w.delivered ++ [(st.s.process, st.s.config.RenewSignal)] } },
     none)

/-- Go `Sidecar.signalProcess`: reload through the callback when there is one,
else start the command when `processRunning` is 0 and signal it otherwise.  The
`go s.checkProcessExit()` statement adds a goroutine that has not run yet. -/
def signalProcess (env : Env) (st : State) : State × Option GoError :=
  match st.s.config.ReloadExternalProcess with
  | none =>
    if st.s.processRunning = 0 then
      match getCmdArgs st.s.config.CmdArgs with
      | Except.error err => (st, some (GoError.wrap "error parsing cmd arguments: " err))
      | Except.ok cmdArgs =>
        let k := st.w.startCalls
        match env.startFault k with
        | some err =>
          ({ st with w := { st.w with startCalls := k + 1 } },
           some (GoError.wrap ("error executing process: " ++ st.s.config.Cmd ++ "\n") err))
        | none =>
          let pid := st.w.children.length
          ({ s := { st.s with process := some pid },
             w := { st.w with
               startCalls := k + 1,
               children := st.w.children ++ [(st.s.config.Cmd, cmdArgs)],
               watchers := st.w.watchers ++ [Watcher.spawned] } },
           none)
    else
      SignalProcess env st
  | some reloadExternalProcess =>
    let k := st.w.hookCalls
    let st := { st with w := { st.w with hookCalls := k + 1 } }
    match reloadExternalProcess k with
    | some err => (st, some (GoError.wrap "error reloading external process: " err))
    | none => (st, none)

/-- The non-blocking send `select { case ch <- struct{}{}: default: }`. -/
def Chan.trySend (ch : Chan) : Chan :=
  if ch.len < ch.cap then { ch with len := ch.len + 1 } else ch

/-- A receive from the channel by a consumer, when an element is buffered. -/
def Chan.recv (ch : Chan) : Chan :=
  { ch with len := ch.len - 1 }

/-- Go `Sidecar.updateCertificates`: dump the update, reload the process when
a command is configured, publish readiness.  The second component is the panic
that ends the call, if any.  Log output is not modelled. -/
def updateCertificates (env : Env) (st : State) (svidResponse : X509Context) :
    State × Option String :=
  match dumpBundles env st svidResponse with
  | (st, Ret.panic msg) => (st, some msg)
  | (st, Ret.error _) => (st, none)
  | (st, Ret.nil) =>
    let st := if st.s.config.Cmd ≠ "" then (signalProcess env st).1 else st
    ({ st with s := { st.s with certReadyChan := st.s.certReadyChan.trySend } }, none)

/-- First statement of the goroutine `checkProcessExit`, run by the `i`-th
goroutine alive: `atomic.StoreInt32(&s.processRunning, 1)`; the goroutine then
blocks in `s.process.Wait()` on the process that `s.process` holds then. -/
def checkProcessExit.store1 (st : State) (i : Nat) : State :=
  match st.w.watchers.get? i, st.s.process with
  | some Watcher.spawned, some pid =>
    { s := { st.s with processRunning := 1 },
      w := { st.w with watchers := st.w.watchers.set i (Watcher.waiting pid) } }
  | _, _ => st

/-- Rest of the goroutine `checkProcessExit`, run by the `i`-th goroutine alive
once the child it waits for has exited: `atomic.StoreInt32(&s.processRunning, 0)`
and the goroutine ends. -/
def checkProcessExit.store0 (st : State) (i : Nat) : State :=
  match st.w.watchers.get? i with
  | some (Watcher.waiting pid) =>
    if pid ∈ st.w.exited then
      { s := { st.s with processRunning := 0 },
        w := { st.w with watchers := st.w.watchers.eraseIdx i } }
    else st
  | _ => st

/-- What can happen to a running sidecar, one atomic step at a time. -/
inductive Event where
  /-- The watcher delivers an update: `updateCertificates` runs. -/
  | update (svidResponse : X509Context)
  /-- A call of `signalProcess`. -/
  | reload
  /-- The `i`-th `checkProcessExit` goroutine runs its first statement. -/
  | watcherStart (i : Nat)
  /-- The child with the given process id exits. -/
  | childExit (pid : Nat)
  /-- The `i`-th `checkProcessExit` goroutine returns from `Wait`. -/
  | watcherEnd (i : Nat)
  /-- A consumer receives from `CertReadyChan`. -/
  | consume

/-- One step of the system. -/
def step (env : Env) (st : State) : Event → State
  | Event.update svidResponse => (updateCertificates env st svidResponse).1
  | Event.reload => (signalProcess env st).1
  | Event.watcherStart i => checkProcessExit.store1 st i
  | Event.childExit pid =>
    if pid < st.w.children.length then
      { st with w := { st.w with exited := st.w.exited ++ [pid] } }
    else st
  | Event.watcherEnd i => checkProcessExit.store0 st i
  | Event.consume =>
    if 0 < st.s.certReadyChan.len then
      { st with s := { st.s with certReadyChan := st.s.certReadyChan.recv } }
    else st

/-- A schedule run from a state. -/
def run (env : Env) (st : State) (events : List Event) : State :=
  events.foldl (step env) st

/-- The world before the sidecar has done anything, over the given files. -/
def World.initial (files : String → Option File) : World :=
  { files := files, writes := 0, startCalls := 0, children := [], exited := [],
    signalCalls := 0, delivered := [], hookCalls := 0, watchers := [] }

/-- The `Sidecar` that `New` returns for a configuration: nothing running, no
process, a readiness channel of capacity 1 (`make(chan struct{}, 1)`). -/
def Sidecar.make (config : Config) : Sidecar :=
  { config := config, processRunning := 0, process := none,
    certReadyChan := { cap := 1, len := 0 } }

/-- The state right after `New`. -/
def State.initial (config : Config) (files : String → Option File) : State :=
  { s := Sidecar.make config, w := World.initial files }

/-! ## Reference notions used to state the properties -/

/-- The content of a certificate file for a list of certificates: one
`CERTIFICATE` block per certificate, in the order of the list. -/
def pemCerts (env : Env) (certs : List Certificate) : Bytes :=
  (certs.map fun cert =>
    env.encodeToMemory { type := "CERTIFICATE", bytes := cert.Raw }).flatten

/-- A sample environment: nothing fails, the umask is 022. -/
def Env.sample : Env :=
  { pathJoin := fun dir name => dir ++ "/" ++ name,
    encodeToMemory := fun b => b.type.length :: b.bytes.length :: b.bytes,
    marshalPKCS8PrivateKey := fun key => Except.ok (48 :: key),
    umask := 0o022,
    writeFault := fun _ => none,
    startFault := fun _ => none,
    signalFault := fun _ => none }

/-- A sample configuration with the three file names set. -/
def Config.sample : Config :=
  { AgentAddress := "/run/agent.sock", Cmd := "proxy", CmdArgs := "-c \"my conf\"",
    CertDir := "certs", SvidFileName := "svid.pem", SvidKeyFileName := "key.pem",
    SvidBundleFileName := "bundle.pem", RenewSignal := "SIGHUP" }

/-- A sample update: a leaf and two intermediates under `example.org`, whose
bundle holds two trust anchors. -/
def X509Context.sample : X509Context :=
  { SVIDs := [{ ID := { td := "example.org", path := "/workload" },
                Certificates := [⟨[1]⟩, ⟨[2]⟩, ⟨[3]⟩],
                PrivateKey := [7, 7] }],
    Bundles := fun td =>
      if td = "example.org" then some { x509Authorities := [⟨[10]⟩, ⟨[11]⟩] } else none }

/-- A sample update whose bundle set lacks the trust domain of its SVID. -/
def X509Context.sampleNoBundle : X509Context :=
  { SVIDs := [{ ID := { td := "example.org", path := "/workload" },
                Certificates := [⟨[1]⟩, ⟨[2]⟩],
                PrivateKey := [7, 7] }],
    Bundles := fun td =>
      if td = "other.org" then some { x509Authorities := [⟨[10]⟩] } else none }

/-- A configuration that sets the agent address and the add-intermediates flag
under their legacy names only. -/
def Config.legacyFlagOnly : Config :=
  { Config.sample with
    AgentAddress := "", AgentAddressDeprecated := "/run/agent.sock",
    AddIntermediatesToBundleDeprecated := true }

/-- A configuration that sets the add-intermediates flag under both names. -/
def Config.flagTwice : Config :=
  { Config.sample with
    AddIntermediatesToBundle := true, AddIntermediatesToBundleDeprecated := true }

/-- The artifact writes of every update of the list succeed, that is
`dumpBundles` returns nil for each update in turn. -/
def dumpsSucceed (env : Env) : State → List X509Context → Prop
  | _, [] => True
  | st, u :: us =>
    (dumpBundles env st u).2 = Ret.nil ∧ dumpsSucceed env (updateCertificates env st u).1 us

/-- The readiness channel keeps capacity 1 and holds at most one element. -/
def chanOk (st : State) : Prop :=
  st.s.certReadyChan.cap = 1 ∧ st.s.certReadyChan.len ≤ 1

/-- Drop one trailing carriage return. -/
def csv.stripCR (l : List Char) : List Char :=
  if l.getLast? = some '\r' then l.dropLast else l

/-- The first line of the text that is not empty: lines end at a line feed, and
one carriage return before the line feed or before the end of the text does
not count. -/
def csv.firstLine (s : List Char) : Option (List Char) :=
  ((s.splitOn '\n').map csv.stripCR).find? fun l => !l.isEmpty

/-- The whitespace-separated tokens of a string: the maximal runs of characters
that are not whitespace. -/
def whitespaceTokens (s : String) : List String :=
  ((s.data.splitOnP Char.isWhitespace).filter fun t => !t.isEmpty).map String.mk

/-- A token as written on the command line: wrapped in double quotes when it
contains a space. -/
def quoteArg (tok : List Char) : List Char :=
  if ' ' ∈ tok then '"' :: tok ++ ['"'] else tok

/-- The command line for a list of tokens: the written tokens joined by single
spaces. -/
def joinArgs (toks : List String) : String :=
  String.mk ([' '].intercalate (toks.map fun t => quoteArg t.data))

/-- What the parse of a single line tells about the number of its double
quotes: a record is only returned when they pair up (in a quoted field one is
still missing), and when none is returned the error is a csv parse error. -/
def csv.parityOk (quoted : Bool) (line : List Char) :
    Except GoError (List (List Char)) → Prop
  | Except.ok _ => line.count '"' % 2 = if quoted then 1 else 0
  | Except.error err => err = GoError.csvQuote ∨ err = GoError.csvBareQuote

/-- The value of a concept after migration: the legacy value when it is set,
else the canonical one. -/
def resolved (legacy canonical : String) : String :=
  if legacy ≠ "" then legacy else canonical

/-- The value of a concept read "canonical or else legacy": the canonical value
when it is set, else the legacy one. -/
def canonicalOrLegacy (canonical legacy : String) : String :=
  if canonical ≠ "" then canonical else legacy

/-- A configuration with nothing but the four required fields. -/
def Config.requiredOnly : Config :=
  { AgentAddress := "/run/agent.sock", SvidFileName := "svid.pem",
    SvidKeyFileName := "key.pem", SvidBundleFileName := "bundle.pem" }

/-- The messages of the "duplicated" errors of `ValidateConfig`. -/
def duplicatedMessages : List String :=
  ["duplicated agentAddress", "duplicated CmdArgs", "duplicated CertDir",
    "duplicated SvidFileName", "duplicated SvidKeyFileName",
    "duplicated SvidBundleFileName", "duplicated RenewSignal"]

/-- Go `ParseConfig`: read the file and decode its HCL text into a `Config`.
`readFile` is `os.ReadFile` and `hclDecode` is `hcl.Decode` into a fresh
`Config`. -/
def ParseConfig (readFile : String → Except GoError String)
    (hclDecode : String → Except GoError Config) (file : String) :
    Except GoError Config :=
  match readFile file with
  | Except.error err => Except.error err
  | Except.ok dat =>
    match hclDecode dat with
    | Except.error err => Except.error err
    | Except.ok sidecarConfig => Except.ok sidecarConfig

/-- Lines 51-56 of `New`: an empty agent address is taken from the environment
variable `SPIRE_AGENT_ADDRESS`, and from `defaultAgentAddress` when that is
empty too. -/
def New.agentAddressFallback (getenv : String → String) (config : Config) : Config :=
  if config.AgentAddress = "" then
    let config := { config with AgentAddress := getenv "SPIRE_AGENT_ADDRESS" }
    if config.AgentAddress = "" then { config with AgentAddress := defaultAgentAddress }
    else config
  else config

/-- Go `New`: parse the configuration file, set the logger (a fresh one when
`log` is nil), validate, fill in the agent address and build the sidecar.
`getenv` is `os.Getenv`; the `Info` and `Warn` log lines are not modelled. -/
def New (validateOSConfig : Config → Option GoError)
    (readFile : String → Except GoError String)
    (hclDecode : String → Except GoError Config) (getenv : String → String)
    (configPath : String) (log : Option (List String)) : Except GoError Sidecar :=
  match ParseConfig readFile hclDecode configPath with
  | Except.error err =>
    Except.error (GoError.wrap ("failed to parse " ++ configPath.quote ++ ": ") err)
  | Except.ok config =>
    let log := if log.isNone then some [] else log
    let config := { config with Log := log }
    match ValidateConfig validateOSConfig config with
    | (_, some err) => Except.error (GoError.wrap "invalid configuration: " err)
    | (config, none) =>
      let config := New.agentAddressFallback getenv config
      Except.ok (Sidecar.make config)

/-- The path of the SVID file, `svidFile` in `dumpBundles`. -/
abbrev svidFile (env : Env) (c : Config) : String :=
  env.pathJoin c.CertDir c.SvidFileName

/-- The path of the key file, `svidKeyFile` in `dumpBundles`. -/
abbrev svidKeyFile (env : Env) (c : Config) : String :=
  env.pathJoin c.CertDir c.SvidKeyFileName

/-- The path of the bundle file, `svidBundleFile` in `dumpBundles`. -/
abbrev svidBundleFile (env : Env) (c : Config) : String :=
  env.pathJoin c.CertDir c.SvidBundleFileName

/-- The content of the key file for a marshalled key: one `EC PRIVATE KEY`
block. -/
def pemKey (env : Env) (der : Bytes) : Bytes :=
  env.encodeToMemory { type := "EC PRIVATE KEY", bytes := der }

/-- The permission bits of a file after a successful `os.WriteFile` with mode
`perm`: those it had when it existed, else `perm` less the umask. -/
def permAfter (env : Env) (old : Option File) (perm : Nat) : Nat :=
  match old with
  | some file => file.perm
  | none => perm &&& (0o777 ^^^ env.umask)

/-- A sidecar configuration with a reload callback that succeeds but without
command. -/
def Config.hookNoCmd : Config :=
  { Config.sample with Cmd := "", ReloadExternalProcess := some fun _ => none }

/-- A sidecar configuration with a command and a reload callback that fails. -/
def Config.hookFails : Config :=
  { Config.sample with
    ReloadExternalProcess := some fun _ => some (GoError.external "reload failed") }

/-- Two worlds agree on everything about processes: starts, children, exits,
signals, callback invocations and goroutines. -/
def World.sameProcesses (a b : World) : Prop :=
  a.startCalls = b.startCalls ∧ a.children = b.children ∧ a.exited = b.exited ∧
  a.signalCalls = b.signalCalls ∧ a.delivered = b.delivered ∧
  a.hookCalls = b.hookCalls ∧ a.watchers = b.watchers

/-- An environment in which the second `os.WriteFile` fails and leaves an empty
file behind. -/
def Env.secondWriteFails : Env :=
  { Env.sample with
    writeFault := fun k =>
      if k = 1 then
        some { err := GoError.external "no space left on device",
               left := some { data := [], perm := 0o600 } }
      else none }

/-- Every permission bit of `a` is a permission bit of `b`. -/
def permSubset (a b : Nat) : Prop := a &&& b = a

/-- A certificate directory in which a world-readable key file exists already. -/
def filesWithOpenKey : String → Option File :=
  fun p => if p = "certs/key.pem" then some { data := [], perm := 0o644 } else none

/-! ## Lemmas on the artifact writer -/

theorem foldl_append_encode (f : Certificate → Bytes) (certs : List Certificate)
    (acc : Bytes) :
    certs.foldl (fun pemData cert => pemData ++ f cert) acc
      = acc ++ (certs.map f).flatten := by
  induction certs generalizing acc with
  | nil => simp
  | cons c cs ih => simp [List.foldl_cons, ih, List.append_assoc]

theorem writeCerts_ok (env : Env) (w : World) (file : String) (certs : List Certificate)
    (h : env.writeFault w.writes = none) :
    (writeCerts env w file certs).2 = none ∧
    (writeCerts env w file certs).1.writes = w.writes + 1 ∧
    ((writeCerts env w file certs).1.files file).map File.data
      = some (pemCerts env certs) ∧
    ∀ p, p ≠ file → (writeCerts env w file certs).1.files p = w.files p := by
  unfold writeCerts WriteFile pemCerts
  simp only [h, foldl_append_encode, List.nil_append]
  refine ⟨trivial, trivial, ?_, ?_⟩
  · cases w.files file <;> simp
  · intro p hp
    simp [hp]

theorem writeKey_ok (env : Env) (w : World) (file : String) (data : Bytes)
    (h : env.writeFault w.writes = none) :
    (writeKey env w file data).2 = none ∧
    (writeKey env w file data).1.writes = w.writes + 1 ∧
    ∀ p, p ≠ file → (writeKey env w file data).1.files p = w.files p := by
  unfold writeKey WriteFile
  simp only [h]
  refine ⟨trivial, trivial, ?_⟩
  intro p hp
  simp [hp]

/-- The three writes of `dumpBundles`, once the contents are fixed: when all
three succeed the call returns nil, the bundle file holds the bundle
certificates, and the svid file holds the chain provided its path differs from
the other two. -/
theorem dumpBundles_writes (env : Env) (st : State) (ctx : X509Context) (svid : SVID)
    (bundle : Bundle) (der : Bytes) (bundles certs : List Certificate)
    (hsvid : ctx.DefaultSVID = some svid)
    (hbundle : ctx.Bundles svid.ID.TrustDomain = some bundle)
    (hkey : env.marshalPKCS8PrivateKey svid.PrivateKey = Except.ok der)
    (hsplit : dumpBundles.split st.s.config.AddIntermediatesToBundle
      bundle.X509Authorities svid.Certificates = some (bundles, certs))
    (hw0 : env.writeFault st.w.writes = none)
    (hw1 : env.writeFault (st.w.writes + 1) = none)
    (hw2 : env.writeFault (st.w.writes + 2) = none) :
    (dumpBundles env st ctx).2 = Ret.nil ∧
    (dumpBundles env st ctx).1.s = st.s ∧
    (((dumpBundles env st ctx).1.w.files
        (env.pathJoin st.s.config.CertDir st.s.config.SvidBundleFileName)).map File.data
      = some (pemCerts env bundles)) ∧
    (env.pathJoin st.s.config.CertDir st.s.config.SvidFileName
        ≠ env.pathJoin st.s.config.CertDir st.s.config.SvidKeyFileName →
      env.pathJoin st.s.config.CertDir st.s.config.SvidFileName
        ≠ env.pathJoin st.s.config.CertDir st.s.config.SvidBundleFileName →
      ((dumpBundles env st ctx).1.w.files
        (env.pathJoin st.s.config.CertDir st.s.config.SvidFileName)).map File.data
      = some (pemCerts env certs)) := by
  obtain ⟨a1, a2, a3, a4⟩ :=
    writeCerts_ok env st.w (env.pathJoin st.s.config.CertDir st.s.config.SvidFileName)
      certs hw0
  obtain ⟨b1, b2, b4⟩ :=
    writeKey_ok env (writeCerts env st.w
      (env.pathJoin st.s.config.CertDir st.s.config.SvidFileName) certs).1
      (env.pathJoin st.s.config.CertDir st.s.config.SvidKeyFileName) der
      (by rw [a2]; exact hw1)
  obtain ⟨c1, _, c3, c4⟩ :=
    writeCerts_ok env (writeKey env (writeCerts env st.w
      (env.pathJoin st.s.config.CertDir st.s.config.SvidFileName) certs).1
      (env.pathJoin st.s.config.CertDir st.s.config.SvidKeyFileName) der).1
      (env.pathJoin st.s.config.CertDir st.s.config.SvidBundleFileName) bundles
      (by rw [b2, a2]; exact hw2)
  have hd : dumpBundles env st ctx =
      ({ st with w := (writeCerts env (writeKey env (writeCerts env st.w
        (env.pathJoin st.s.config.CertDir st.s.config.SvidFileName) certs).1
        (env.pathJoin st.s.config.CertDir st.s.config.SvidKeyFileName) der).1
        (env.pathJoin st.s.config.CertDir st.s.config.SvidBundleFileName) bundles).1 },
       Ret.nil) := by
    unfold dumpBundles
    simp only [hsvid, hbundle, hkey, hsplit]
    split
    · rename_i w err heq
      rw [Prod.ext_iff] at heq
      simp [a1] at heq
    · rename_i w heq
      have hw : w = (writeCerts env st.w
          (env.pathJoin st.s.config.CertDir st.s.config.SvidFileName) certs).1 := by
        rw [heq]
      subst hw
      split
      · rename_i w err heq
        rw [Prod.ext_iff] at heq
        simp [b1] at heq
      · rename_i w heq
        have hw : w = (writeKey env (writeCerts env st.w
            (env.pathJoin st.s.config.CertDir st.s.config.SvidFileName) certs).1
            (env.pathJoin st.s.config.CertDir st.s.config.SvidKeyFileName) der).1 := by
          rw [heq]
        subst hw
        split
        · rename_i w err heq
          rw [Prod.ext_iff] at heq
          simp [c1] at heq
        · rename_i w heq
          rw [heq]
  rw [hd]
  refine ⟨rfl, rfl, c3, ?_⟩
  intro hk hb
  show Option.map File.data ((writeCerts env _ _ bundles).1.files _) = _
  rw [c4 _ hb, b4 _ hk, a3]

/-! ## The artifact writer: what ends up in the files -/

/-- C1: for every update (chain = leaf followed by intermediates) whose trust
bundle is present, whose key marshals and whose three writes succeed, with
`AddIntermediatesToBundle = false`, `dumpBundles` returns nil, the SVID file
holds one CERTIFICATE block per certificate of the full chain in the input
order, and the bundle file holds exactly the trust anchors of the SVID's trust
domain in their order.  The SVID path is taken to differ from the key path and
the bundle path (three separate files). -/
theorem dumpBundles_full_chain_and_anchors (env : Env) (st : State) (ctx : X509Context)
    (svid : SVID) (leaf : Certificate) (intermediates : List Certificate)
    (bundle : Bundle) (der : Bytes)
    (hsvid : ctx.DefaultSVID = some svid)
    (hchain : svid.Certificates = leaf :: intermediates)
    (hbundle : ctx.Bundles svid.ID.TrustDomain = some bundle)
    (hkey : env.marshalPKCS8PrivateKey svid.PrivateKey = Except.ok der)
    (hflag : st.s.config.AddIntermediatesToBundle = false)
    (hw0 : env.writeFault st.w.writes = none)
    (hw1 : env.writeFault (st.w.writes + 1) = none)
    (hw2 : env.writeFault (st.w.writes + 2) = none)
    (hk : env.pathJoin st.s.config.CertDir st.s.config.SvidFileName
        ≠ env.pathJoin st.s.config.CertDir st.s.config.SvidKeyFileName)
    (hb : env.pathJoin st.s.config.CertDir st.s.config.SvidFileName
        ≠ env.pathJoin st.s.config.CertDir st.s.config.SvidBundleFileName) :
    (dumpBundles env st ctx).2 = Ret.nil ∧
    ((dumpBundles env st ctx).1.w.files
        (env.pathJoin st.s.config.CertDir st.s.config.SvidFileName)).map File.data
      = some (pemCerts env (leaf :: intermediates)) ∧
    ((dumpBundles env st ctx).1.w.files
        (env.pathJoin st.s.config.CertDir st.s.config.SvidBundleFileName)).map File.data
      = some (pemCerts env bundle.x509Authorities) := by
  have hsplit : dumpBundles.split st.s.config.AddIntermediatesToBundle
      bundle.X509Authorities svid.Certificates
        = some (bundle.x509Authorities, leaf :: intermediates) := by
    simp [dumpBundles.split, hflag, hchain, Bundle.X509Authorities]
  obtain ⟨h1, _, h3, h4⟩ :=
    dumpBundles_writes env st ctx svid bundle der _ _ hsvid hbundle hkey hsplit hw0 hw1 hw2
  exact ⟨h1, h4 hk hb, h3⟩

/-- Witness for C1: the sample update written into an empty directory. -/
theorem dumpBundles_full_chain_and_anchors_witness :
    (dumpBundles Env.sample (State.initial Config.sample fun _ => none)
        X509Context.sample).2 = Ret.nil ∧
    ((dumpBundles Env.sample (State.initial Config.sample fun _ => none)
        X509Context.sample).1.w.files "certs/svid.pem").map File.data
      = some (pemCerts Env.sample [⟨[1]⟩, ⟨[2]⟩, ⟨[3]⟩]) ∧
    ((dumpBundles Env.sample (State.initial Config.sample fun _ => none)
        X509Context.sample).1.w.files "certs/bundle.pem").map File.data
      = some (pemCerts Env.sample [⟨[10]⟩, ⟨[11]⟩]) :=
  dumpBundles_full_chain_and_anchors Env.sample
    (State.initial Config.sample fun _ => none) X509Context.sample
    { ID := { td := "example.org", path := "/workload" },
      Certificates := [⟨[1]⟩, ⟨[2]⟩, ⟨[3]⟩], PrivateKey := [7, 7] }
    ⟨[1]⟩ [⟨[2]⟩, ⟨[3]⟩] { x509Authorities := [⟨[10]⟩, ⟨[11]⟩] } [48, 7, 7]
    rfl rfl rfl rfl rfl rfl rfl rfl (by decide) (by decide)

/-- C2: for every update whose trust bundle is present, whose key marshals and
whose three writes succeed, with `AddIntermediatesToBundle = true`,
`dumpBundles` returns nil, the SVID file holds exactly one certificate, the
leaf, and the bundle file holds the trust anchors followed by the chain's
intermediates, each group in its original order.  The SVID path is taken to
differ from the key path and the bundle path (three separate files). -/
theorem dumpBundles_leaf_only_and_merged_bundle (env : Env) (st : State)
    (ctx : X509Context) (svid : SVID) (leaf : Certificate)
    (intermediates : List Certificate) (bundle : Bundle) (der : Bytes)
    (hsvid : ctx.DefaultSVID = some svid)
    (hchain : svid.Certificates = leaf :: intermediates)
    (hbundle : ctx.Bundles svid.ID.TrustDomain = some bundle)
    (hkey : env.marshalPKCS8PrivateKey svid.PrivateKey = Except.ok der)
    (hflag : st.s.config.AddIntermediatesToBundle = true)
    (hw0 : env.writeFault st.w.writes = none)
    (hw1 : env.writeFault (st.w.writes + 1) = none)
    (hw2 : env.writeFault (st.w.writes + 2) = none)
    (hk : env.pathJoin st.s.config.CertDir st.s.config.SvidFileName
        ≠ env.pathJoin st.s.config.CertDir st.s.config.SvidKeyFileName)
    (hb : env.pathJoin st.s.config.CertDir st.s.config.SvidFileName
        ≠ env.pathJoin st.s.config.CertDir st.s.config.SvidBundleFileName) :
    (dumpBundles env st ctx).2 = Ret.nil ∧
    ((dumpBundles env st ctx).1.w.files
        (env.pathJoin st.s.config.CertDir st.s.config.SvidFileName)).map File.data
      = some (pemCerts env [leaf]) ∧
    ((dumpBundles env st ctx).1.w.files
        (env.pathJoin st.s.config.CertDir st.s.config.SvidBundleFileName)).map File.data
      = some (pemCerts env (bundle.x509Authorities ++ intermediates)) := by
  have hsplit : dumpBundles.split st.s.config.AddIntermediatesToBundle
      bundle.X509Authorities svid.Certificates
        = some (bundle.x509Authorities ++ intermediates, [leaf]) := by
    simp [dumpBundles.split, hflag, hchain, Bundle.X509Authorities]
  obtain ⟨h1, _, h3, h4⟩ :=
    dumpBundles_writes env st ctx svid bundle der _ _ hsvid hbundle hkey hsplit hw0 hw1 hw2
  exact ⟨h1, h4 hk hb, h3⟩

/-- Witness for C2: the sample update written into an empty directory by a
sidecar that merges the intermediates into the bundle. -/
theorem dumpBundles_leaf_only_and_merged_bundle_witness :
    (dumpBundles Env.sample
        (State.initial { Config.sample with AddIntermediatesToBundle := true }
          fun _ => none)
        X509Context.sample).2 = Ret.nil ∧
    ((dumpBundles Env.sample
        (State.initial { Config.sample with AddIntermediatesToBundle := true }
          fun _ => none)
        X509Context.sample).1.w.files "certs/svid.pem").map File.data
      = some (pemCerts Env.sample [⟨[1]⟩]) ∧
    ((dumpBundles Env.sample
        (State.initial { Config.sample with AddIntermediatesToBundle := true }
          fun _ => none)
        X509Context.sample).1.w.files "certs/bundle.pem").map File.data
      = some (pemCerts Env.sample [⟨[10]⟩, ⟨[11]⟩, ⟨[2]⟩, ⟨[3]⟩]) :=
  dumpBundles_leaf_only_and_merged_bundle Env.sample
    (State.initial { Config.sample with AddIntermediatesToBundle := true } fun _ => none)
    X509Context.sample
    { ID := { td := "example.org", path := "/workload" },
      Certificates := [⟨[1]⟩, ⟨[2]⟩, ⟨[3]⟩], PrivateKey := [7, 7] }
    ⟨[1]⟩ [⟨[2]⟩, ⟨[3]⟩] { x509Authorities := [⟨[10]⟩, ⟨[11]⟩] } [48, 7, 7]
    rfl rfl rfl rfl rfl rfl rfl rfl (by decide) (by decide)

/-! ## An update without a bundle for its trust domain -/

/-- C3: for every sidecar state and every update whose bundle set has no entry
for the trust domain of its SVID, `dumpBundles` returns the "no bundles found"
error with the state untouched, `updateCertificates` returns the state it was
given (no file written, no start, signal or callback attempted, nothing
published on the readiness channel), and so any following update behaves as it
would have from the prior state. -/
theorem updateCertificates_without_bundle_changes_nothing (env : Env) (st : State)
    (ctx : X509Context) (svid : SVID)
    (hsvid : ctx.DefaultSVID = some svid)
    (hnone : ctx.Bundles svid.ID.TrustDomain = none) :
    dumpBundles env st ctx
      = (st, Ret.error (GoError.new
          ("no bundles found for " ++ svid.ID.TrustDomain ++ " trust domain"))) ∧
    updateCertificates env st ctx = (st, none) ∧
    (updateCertificates env st ctx).1.w.files = st.w.files ∧
    (updateCertificates env st ctx).1.w.writes = st.w.writes ∧
    (updateCertificates env st ctx).1.w.startCalls = st.w.startCalls ∧
    (updateCertificates env st ctx).1.w.signalCalls = st.w.signalCalls ∧
    (updateCertificates env st ctx).1.w.hookCalls = st.w.hookCalls ∧
    (updateCertificates env st ctx).1.s.certReadyChan = st.s.certReadyChan ∧
    ∀ next : X509Context,
      updateCertificates env (updateCertificates env st ctx).1 next
        = updateCertificates env st next := by
  have hd : dumpBundles env st ctx
      = (st, Ret.error (GoError.new
          ("no bundles found for " ++ svid.ID.TrustDomain ++ " trust domain"))) := by
    unfold dumpBundles
    simp only [hsvid, hnone]
  have hu : updateCertificates env st ctx = (st, none) := by
    unfold updateCertificates
    rw [hd]
  refine ⟨hd, hu, ?_, ?_, ?_, ?_, ?_, ?_, ?_⟩ <;> simp [hu]

/-- Witness for C3: the sample update without bundle, on a fresh sidecar. -/
theorem updateCertificates_without_bundle_changes_nothing_witness :
    updateCertificates Env.sample (State.initial Config.sample fun _ => none)
        X509Context.sampleNoBundle
      = (State.initial Config.sample fun _ => none, none) :=
  (updateCertificates_without_bundle_changes_nothing Env.sample
    (State.initial Config.sample fun _ => none) X509Context.sampleNoBundle
    { ID := { td := "example.org", path := "/workload" },
      Certificates := [⟨[1]⟩, ⟨[2]⟩], PrivateKey := [7, 7] }
    rfl rfl).2.1

/-! ## Process supervision -/

theorem signalProcess_start (env : Env) (st : State) (cmdArgs : List String)
    (hhook : st.s.config.ReloadExternalProcess = none)
    (hrun : st.s.processRunning = 0)
    (hargs : getCmdArgs st.s.config.CmdArgs = Except.ok cmdArgs)
    (hs : env.startFault st.w.startCalls = none) :
    signalProcess env st =
      ({ s := { st.s with process := some st.w.children.length },
         w := { st.w with
           startCalls := st.w.startCalls + 1,
           children := st.w.children ++ [(st.s.config.Cmd, cmdArgs)],
           watchers := st.w.watchers ++ [Watcher.spawned] } },
       none) := by
  unfold signalProcess
  simp only [hhook, hrun, hargs, hs, if_true]

/-- C4, at the failing schedule: with no reload callback, `processRunning` 0,
arguments that parse and a command that starts, two calls of `signalProcess`
in sequence, made before the `checkProcessExit` goroutine of the first has
stored 1 and with no child exit in between, start two children and deliver no
signal. -/
theorem signalProcess_twice_before_watcher_starts_two (env : Env) (st : State)
    (cmdArgs : List String)
    (hhook : st.s.config.ReloadExternalProcess = none)
    (hrun : st.s.processRunning = 0)
    (hargs : getCmdArgs st.s.config.CmdArgs = Except.ok cmdArgs)
    (hs0 : env.startFault st.w.startCalls = none)
    (hs1 : env.startFault (st.w.startCalls + 1) = none) :
    (run env st [Event.reload, Event.reload]).w.children
      = st.w.children ++ [(st.s.config.Cmd, cmdArgs), (st.s.config.Cmd, cmdArgs)] ∧
    (run env st [Event.reload, Event.reload]).w.delivered = st.w.delivered ∧
    (run env st [Event.reload, Event.reload]).w.signalCalls = st.w.signalCalls ∧
    (run env st [Event.reload, Event.reload]).w.watchers
      = st.w.watchers ++ [Watcher.spawned, Watcher.spawned] := by
  have h1 := signalProcess_start env st cmdArgs hhook hrun hargs hs0
  have h2 := signalProcess_start env (signalProcess env st).1 cmdArgs
    (by rw [h1]; exact hhook) (by rw [h1]; exact hrun) (by rw [h1]; exact hargs)
    (by rw [h1]; exact hs1)
  simp only [run, List.foldl_cons, List.foldl_nil, step]
  rw [h2, h1]
  simp

/-- Witness for C4: a fresh sidecar with the sample configuration has two
children and no delivered signal after two reloads in a row. -/
theorem signalProcess_twice_before_watcher_starts_two_witness :
    (run Env.sample (State.initial Config.sample fun _ => none)
        [Event.reload, Event.reload]).w.children
      = [("proxy", ["-c", "my conf"]), ("proxy", ["-c", "my conf"])] ∧
    (run Env.sample (State.initial Config.sample fun _ => none)
        [Event.reload, Event.reload]).w.delivered = [] :=
  have h := signalProcess_twice_before_watcher_starts_two Env.sample
    (State.initial Config.sample fun _ => none) ["-c", "my conf"]
    rfl rfl (by decide) rfl rfl
  ⟨h.1, h.2.1⟩

/-- The orderly schedule: when the goroutine of the first call stores 1 before
the second call, the second call signals the one child instead of starting
another. -/
theorem signalProcess_twice_after_watcher_starts_one (env : Env) (st : State)
    (cmdArgs : List String)
    (hhook : st.s.config.ReloadExternalProcess = none)
    (hrun : st.s.processRunning = 0)
    (hargs : getCmdArgs st.s.config.CmdArgs = Except.ok cmdArgs)
    (hs0 : env.startFault st.w.startCalls = none)
    (hsig : env.signalFault st.w.signalCalls = none) :
    (run env st [Event.reload, Event.watcherStart st.w.watchers.length,
        Event.reload]).w.children
      = st.w.children ++ [(st.s.config.Cmd, cmdArgs)] ∧
    (run env st [Event.reload, Event.watcherStart st.w.watchers.length,
        Event.reload]).w.delivered
      = st.w.delivered ++ [(some st.w.children.length, st.s.config.RenewSignal)] := by
  have h1 := signalProcess_start env st cmdArgs hhook hrun hargs hs0
  simp only [run, List.foldl_cons, List.foldl_nil, step]
  rw [h1]
  simp [checkProcessExit.store1, signalProcess, SignalProcess, hhook, hsig]

/-! ## The readiness channel -/

theorem dumpBundles_keeps_sidecar (env : Env) (st : State) (ctx : X509Context) :
    (dumpBundles env st ctx).1.s = st.s := by
  unfold dumpBundles
  split
  · rfl
  · dsimp only
    repeat' split
    all_goals rfl

theorem signalProcess_keeps_chan (env : Env) (st : State) :
    (signalProcess env st).1.s.certReadyChan = st.s.certReadyChan := by
  unfold signalProcess SignalProcess
  repeat' first
    | rfl
    | split
    | dsimp only

theorem updateCertificates_chan (env : Env) (st : State) (ctx : X509Context) :
    (updateCertificates env st ctx).1.s.certReadyChan
      = if (dumpBundles env st ctx).2 = Ret.nil then st.s.certReadyChan.trySend
        else st.s.certReadyChan := by
  have hk := dumpBundles_keeps_sidecar env st ctx
  unfold updateCertificates
  split
  · rename_i st1 msg heq
    rw [heq] at hk
    simp only [heq] at *
    simp [hk]
  · rename_i st1 err heq
    rw [heq] at hk
    simp only [heq] at *
    simp [hk]
  · rename_i st1 heq
    rw [heq] at hk
    simp only [heq] at *
    simp only [if_true]
    split_ifs
    · rw [signalProcess_keeps_chan, hk]
    · rw [hk]

theorem trySend_ok (ch : Chan) (hcap : ch.cap = 1) (hlen : ch.len ≤ 1) :
    ch.trySend.cap = 1 ∧ ch.trySend.len = 1 := by
  unfold Chan.trySend
  split_ifs with h
  · exact ⟨hcap, by simp only; omega⟩
  · exact ⟨hcap, by omega⟩

theorem step_chanOk (env : Env) (st : State) (e : Event) (h : chanOk st) :
    chanOk (step env st e) := by
  obtain ⟨hcap, hlen⟩ := h
  cases e with
  | update ctx =>
    unfold chanOk
    simp only [step, updateCertificates_chan]
    split_ifs
    · obtain ⟨a, b⟩ := trySend_ok _ hcap hlen
      exact ⟨a, by omega⟩
    · exact ⟨hcap, hlen⟩
  | reload =>
    unfold chanOk
    simp only [step, signalProcess_keeps_chan]
    exact ⟨hcap, hlen⟩
  | watcherStart i =>
    unfold chanOk
    simp only [step, checkProcessExit.store1]
    repeat' split
    all_goals exact ⟨hcap, hlen⟩
  | childExit pid =>
    unfold chanOk
    simp only [step]
    split_ifs <;> exact ⟨hcap, hlen⟩
  | watcherEnd i =>
    unfold chanOk
    simp only [step, checkProcessExit.store0]
    repeat' split
    all_goals exact ⟨hcap, hlen⟩
  | consume =>
    unfold chanOk
    simp only [step]
    split_ifs
    · exact ⟨hcap, by simp only [Chan.recv]; omega⟩
    · exact ⟨hcap, hlen⟩

theorem run_chanOk (env : Env) (events : List Event) (st : State) (h : chanOk st) :
    chanOk (run env st events) := by
  induction events generalizing st with
  | nil => exact h
  | cons e es ih => exact ih _ (step_chanOk env st e h)

theorem run_updates_chan (env : Env) (updates : List X509Context) (st : State)
    (h : chanOk st) (hne : updates ≠ []) (hok : dumpsSucceed env st updates) :
    (run env st (updates.map Event.update)).s.certReadyChan.len = 1 := by
  induction updates generalizing st with
  | nil => exact absurd rfl hne
  | cons u us ih =>
    obtain ⟨hu, hrest⟩ := hok
    have h1 : chanOk (step env st (Event.update u)) := step_chanOk env st _ h
    have hlen : (step env st (Event.update u)).s.certReadyChan.len = 1 := by
      simp only [step, updateCertificates_chan, hu, if_true]
      exact (trySend_ok _ h.1 h.2).2
    cases us with
    | nil => exact hlen
    | cons u2 us2 =>
      exact ih (step env st (Event.update u)) h1 (by simp) hrest

/-- C5: from any state that the sidecar can reach after `New`, a list of N >= 1
updates whose artifact writes all succeed, processed by `updateCertificates`
with no consumer read in between, leaves exactly one element in the readiness
channel; every publish is the non-blocking `Chan.trySend`, which returns in
every case; and in every reachable state the channel holds at most one
element. -/
theorem readiness_slot_holds_one_signal (env : Env) (config : Config)
    (files : String → Option File) (before : List Event) (updates : List X509Context)
    (hne : updates ≠ [])
    (hok : dumpsSucceed env (run env (State.initial config files) before) updates) :
    (run env (run env (State.initial config files) before)
        (updates.map Event.update)).s.certReadyChan.len = 1 ∧
    ∀ events : List Event,
      (run env (State.initial config files) events).s.certReadyChan.len ≤ 1 := by
  have h0 : chanOk (State.initial config files) := ⟨rfl, Nat.zero_le _⟩
  exact ⟨run_updates_chan env updates _ (run_chanOk env before _ h0) hne hok,
    fun events => (run_chanOk env events _ h0).2⟩

/-- Witness for C5: three sample updates in a row on a fresh sidecar. -/
theorem readiness_slot_holds_one_signal_witness :
    (run Env.sample (run Env.sample (State.initial Config.sample fun _ => none) [])
        ([X509Context.sample, X509Context.sample, X509Context.sample].map
          Event.update)).s.certReadyChan.len = 1 :=
  (readiness_slot_holds_one_signal Env.sample Config.sample (fun _ => none) []
    [X509Context.sample, X509Context.sample, X509Context.sample]
    (by simp) ⟨by decide, by decide, by decide, trivial⟩).1

/-! ## Lemmas on the csv reader -/

namespace csv

theorem indexByte_eq_none {l : List Char} {c : Char} : indexByte l c = none ↔ c ∉ l := by
  induction l with
  | nil => simp [indexByte]
  | cons x xs ih =>
    unfold indexByte
    by_cases h : x = c
    · simp [h]
    · simp [h, ih, Ne.symm h]

theorem indexByte_isSome {l : List Char} {c : Char} : (indexByte l c).isSome ↔ c ∈ l := by
  rw [← not_iff_not, Bool.not_eq_true, Option.not_isSome, Option.isNone_iff_eq_none,
    indexByte_eq_none]

theorem indexByte_append (pre post : List Char) (c : Char) (h : c ∉ pre) :
    indexByte (pre ++ c :: post) c = some pre.length := by
  induction pre with
  | nil => simp [indexByte]
  | cons x xs ih =>
    have hx : x ≠ c := fun e => h (by simp [e])
    have hxs : c ∉ xs := fun e => h (by simp [e])
    simp [indexByte, hx, ih hxs]

theorem indexByte_eq_some {l : List Char} {c : Char} {i : Nat} (h : indexByte l c = some i) :
    c ∉ l.take i ∧ l = l.take i ++ c :: l.drop (i + 1) := by
  induction l generalizing i with
  | nil => simp [indexByte] at h
  | cons x xs ih =>
    unfold indexByte at h
    by_cases hx : x = c
    · simp [hx] at h
      subst h
      simp [hx]
    · simp only [hx, if_false, Option.map_eq_some'] at h
      obtain ⟨j, hj, rfl⟩ := h
      obtain ⟨h1, h2⟩ := ih hj
      refine ⟨?_, ?_⟩
      · simp [List.take_succ_cons, Ne.symm hx, h1]
      · simp only [List.take_succ_cons, List.drop_succ_cons, List.cons_append]
        rw [← h2]

theorem lengthNL_of_not_mem {l : List Char} (h : '\n' ∉ l) : lengthNL l = 0 := by
  unfold lengthNL
  split_ifs with hl
  · exact absurd (List.mem_of_getLast?_eq_some hl) h
  · rfl

theorem lengthNL_append_nl (l : List Char) : lengthNL (l ++ ['\n']) = 1 := by
  simp [lengthNL]

theorem readSlice_of_not_mem {l : List Char} (h : '\n' ∉ l) :
    readSlice l = (l, false, []) := by
  induction l with
  | nil => rfl
  | cons x xs ih =>
    have hx : x ≠ '\n' := fun e => h (by simp [e])
    have hxs : '\n' ∉ xs := fun e => h (by simp [e])
    simp [readSlice, hx, ih hxs]

theorem readSlice_append_nl (l rest : List Char) (h : '\n' ∉ l) :
    readSlice (l ++ '\n' :: rest) = (l ++ ['\n'], true, rest) := by
  induction l with
  | nil => simp [readSlice]
  | cons x xs ih =>
    have hx : x ≠ '\n' := fun e => h (by simp [e])
    have hxs : '\n' ∉ xs := fun e => h (by simp [e])
    simp [readSlice, hx, ih hxs]

theorem readLine_nil : readLine [] = ([], some GoError.eof, []) := by decide

theorem crlf_of_not_mem (m : List Char) (hm : '\n' ∉ m) :
    (if 2 ≤ m.length ∧ m.get? (m.length - 2) = some '\r'
        ∧ m.get? (m.length - 1) = some '\n' then
      m.take (m.length - 2) ++ ['\n']
    else m) = m :=
  if_neg fun hc => hm (List.get?_mem hc.2.2)

theorem crlf_concat (l0 : List Char) (x : Char) :
    (if 2 ≤ (l0 ++ [x, '\n']).length
        ∧ (l0 ++ [x, '\n']).get? ((l0 ++ [x, '\n']).length - 2) = some '\r'
        ∧ (l0 ++ [x, '\n']).get? ((l0 ++ [x, '\n']).length - 1) = some '\n' then
      (l0 ++ [x, '\n']).take ((l0 ++ [x, '\n']).length - 2) ++ ['\n']
    else l0 ++ [x, '\n']) = if x = '\r' then l0 ++ ['\n'] else l0 ++ [x, '\n'] := by
  have h1 : (l0 ++ [x, '\n']).length - 2 = l0.length := by simp
  have h2 : (l0 ++ [x, '\n']).length - 1 = l0.length + 1 := by simp
  rw [h1, h2]
  have g1 : (l0 ++ [x, '\n']).get? l0.length = some x := by
    rw [List.get?_eq_getElem?, List.getElem?_append_right (Nat.le_refl _)]
    simp
  have g2 : (l0 ++ [x, '\n']).get? (l0.length + 1) = some '\n' := by
    rw [List.get?_eq_getElem?, List.getElem?_append_right (Nat.le_succ _)]
    simp
  rw [g1, g2, List.take_left]
  by_cases hx : x = '\r'
  · simp [hx]
  · simp [hx]

theorem readLine_last {l : List Char} (h : '\n' ∉ l) (hne : l ≠ []) :
    readLine l = (stripCR l, none, []) := by
  have hlen : 0 < l.length := List.length_pos.mpr hne
  unfold readLine stripCR
  simp only [readSlice_of_not_mem h]
  simp only [hlen, decide_True, Bool.true_and, Bool.false_eq_true, if_false,
    if_true]
  by_cases hcr : l.getLast? = some '\r'
  · have hd : '\n' ∉ l.dropLast := fun e => h (List.dropLast_subset l e)
    simp only [hcr, decide_True, if_true]
    rw [crlf_of_not_mem _ hd]
  · simp only [hcr, decide_False, Bool.false_eq_true, if_false]
    rw [crlf_of_not_mem _ h]

theorem readLine_nl (l rest : List Char) (h : '\n' ∉ l) :
    readLine (l ++ '\n' :: rest) = (stripCR l ++ ['\n'], none, rest) := by
  unfold readLine stripCR
  simp only [readSlice_append_nl l rest h]
  simp only [if_true, Bool.and_false, Bool.false_and, Bool.false_eq_true, if_false,
    decide_False, reduceCtorEq]
  rcases List.eq_nil_or_concat l with rfl | ⟨l0, x, rfl⟩
  · simp
  · rw [List.concat_eq_append, List.append_assoc]
    simp only [List.singleton_append]
    rw [crlf_concat]
    by_cases hx : x = '\r'
    · simp [hx]
    · simp [hx]

theorem splitOn_of_not_mem (c : Char) (l : List Char) (h : c ∉ l) : l.splitOn c = [l] := by
  unfold List.splitOn
  apply List.splitOnP_eq_single
  intro x hx hxs
  have : x = c := by simpa using hxs
  exact h (this ▸ hx)

theorem splitOn_first (c : Char) (pre post : List Char) (h : c ∉ pre) :
    (pre ++ c :: post).splitOn c = pre :: post.splitOn c := by
  unfold List.splitOn
  apply List.splitOnP_first
  · intro x hx hxs
    have : x = c := by simpa using hxs
    exact h (this ▸ hx)
  · simp

theorem take_sub_lengthNL (l nl : List Char) (hl : '\n' ∉ l) (hnl : nl = [] ∨ nl = ['\n']) :
    (l ++ nl).take ((l ++ nl).length - lengthNL (l ++ nl)) = l := by
  rcases hnl with rfl | rfl
  · simp [lengthNL_of_not_mem hl]
  · rw [lengthNL_append_nl]
    simp

theorem head?_append_nl_ne_quote (l nl : List Char) (hq : '"' ∉ l)
    (hnl : nl = [] ∨ nl = ['\n']) : (l ++ nl).head? ≠ some '"' := by
  intro h
  have hmem : '"' ∈ l ++ nl := List.mem_of_mem_head? h
  rcases hnl with rfl | rfl
  · simp at hmem; exact hq hmem
  · simp at hmem; exact hq hmem

/-- A line without double quotes parses into its pieces between spaces. -/
theorem parseField_plain (fuel : Nat) :
    ∀ (l nl input buf : List Char) (fields : List (List Char)),
      '"' ∉ l → '\n' ∉ l → (nl = [] ∨ nl = ['\n']) → l.length < fuel →
      parseField ' ' fuel false (l ++ nl) input buf fields
        = Except.ok (fields ++ l.splitOn ' ') := by
  induction fuel with
  | zero => intro l nl input buf fields _ _ _ h; omega
  | succ fuel ih =>
    intro l nl input buf fields hq hn hnl hlen
    rw [parseField]
    rw [if_neg (head?_append_nl_ne_quote l nl hq hnl)]
    cases hi : indexByte l ' ' with
    | none =>
      have hsp : ' ' ∉ l := indexByte_eq_none.mp hi
      have hsp2 : ' ' ∉ l ++ nl := by
        rcases hnl with rfl | rfl <;> simp [hsp]
      rw [indexByte_eq_none.mpr hsp2]
      simp only
      rw [take_sub_lengthNL l nl hn hnl]
      have : (indexByte l '"').isSome = false := by
        rw [← Bool.not_eq_true, indexByte_isSome]; exact hq
      simp [this, splitOn_of_not_mem _ l hsp]
    | some i =>
      obtain ⟨hpre, hdec⟩ := indexByte_eq_some hi
      have hl2 : l ++ nl = l.take i ++ ' ' :: (l.drop (i + 1) ++ nl) := by
        conv_lhs => rw [hdec]
        simp
      have hidx : indexByte (l ++ nl) ' ' = some (l.take i).length := by
        rw [hl2]; exact indexByte_append _ _ _ hpre
      rw [hidx]
      simp only
      have htake : (l ++ nl).take (l.take i).length = l.take i := by
        rw [hl2]; exact List.take_left _ _
      have hdrop : (l ++ nl).drop ((l.take i).length + 1) = l.drop (i + 1) ++ nl := by
        rw [hl2]
        rw [List.drop_append_eq_append_drop]
        simp
      rw [htake, hdrop]
      have hq1 : '"' ∉ l.take i := fun e => hq (List.mem_of_mem_take e)
      have hq2 : '"' ∉ l.drop (i + 1) := fun e => hq (List.mem_of_mem_drop e)
      have hn2 : '\n' ∉ l.drop (i + 1) := fun e => hn (List.mem_of_mem_drop e)
      have : (indexByte (l.take i) '"').isSome = false := by
        rw [← Bool.not_eq_true, indexByte_isSome]; exact hq1
      simp only [this, Bool.false_eq_true, if_false]
      have hpos : 0 < l.length := by
        cases l with
        | nil => simp [indexByte] at hi
        | cons x xs => simp
      have hlen2 : (l.drop (i + 1)).length < fuel := by
        simp only [List.length_drop]; omega
      rw [ih _ nl input [] _ hq2 hn2 hnl hlen2]
      conv_rhs => rw [hdec, splitOn_first _ _ _ hpre]
      simp

theorem stripCR_subset (l : List Char) : ∀ c ∈ stripCR l, c ∈ l := by
  intro c hc
  unfold stripCR at hc
  split_ifs at hc
  · exact List.dropLast_subset l hc
  · exact hc

theorem stripCR_length (l : List Char) : (stripCR l).length ≤ l.length := by
  unfold stripCR
  split_ifs
  · simp
  · exact Nat.le_refl _

theorem nextLine_spec (fuel : Nat) :
    ∀ s : List Char, s.length < fuel →
      match firstLine s with
      | none => ∃ line rest, nextLine fuel s = some (line, some GoError.eof, rest)
      | some l =>
        l ≠ [] ∧ '\n' ∉ l ∧ (∀ c ∈ l, c ∈ s) ∧ l.length ≤ s.length ∧
        ∃ nl rest, (nl = [] ∨ nl = ['\n']) ∧ nextLine fuel s = some (l ++ nl, none, rest) := by
  induction fuel with
  | zero => intro s h; omega
  | succ fuel ih =>
    intro s hlen
    by_cases hs : s = []
    · subst hs
      have : firstLine [] = none := by decide
      rw [this]
      exact ⟨[], [], by simp [nextLine, readLine_nil]⟩
    cases hi : indexByte s '\n' with
    | none =>
      have hn : '\n' ∉ s := indexByte_eq_none.mp hi
      have hn' : '\n' ∉ stripCR s := fun e => hn (stripCR_subset s _ e)
      have hf : firstLine s = if stripCR s = [] then none else some (stripCR s) := by
        unfold firstLine
        rw [splitOn_of_not_mem _ s hn]
        by_cases he : stripCR s = []
        · simp [he]
        · simp [he]
      have hfuel : 0 < fuel := by
        have := List.length_pos.mpr hs
        omega
      by_cases he : stripCR s = []
      · rw [hf, if_pos he]
        refine ⟨[], [], ?_⟩
        unfold nextLine
        simp only [readLine_last hn hs, he]
        obtain ⟨f, rfl⟩ : ∃ f, fuel = f + 1 := ⟨fuel - 1, by omega⟩
        simp [lengthNL, nextLine, readLine_nil]
      · rw [hf, if_neg he]
        refine ⟨he, hn', stripCR_subset s, stripCR_length s, [], [], Or.inl rfl, ?_⟩
        unfold nextLine
        simp only [readLine_last hn hs, List.append_nil]
        have : ¬ ((stripCR s).length = lengthNL (stripCR s)) := by
          rw [lengthNL_of_not_mem hn']
          intro h0
          exact he (List.length_eq_zero.mp h0)
        simp [this]
    | some i =>
      obtain ⟨hpre, hdec⟩ := indexByte_eq_some hi
      generalize hp : s.take i = pre at hpre hdec
      generalize hpo : s.drop (i + 1) = post at hdec
      subst hdec
      have hn' : '\n' ∉ stripCR pre := fun e => hpre (stripCR_subset pre _ e)
      have hf : firstLine (pre ++ '\n' :: post)
          = if stripCR pre = [] then firstLine post else some (stripCR pre) := by
        unfold firstLine
        rw [splitOn_first _ _ _ hpre]
        by_cases he : stripCR pre = []
        · simp [he]
        · simp [he]
      have hlen2 : post.length < fuel := by
        simp at hlen; omega
      by_cases he : stripCR pre = []
      · rw [hf, if_pos he]
        have hnext : nextLine (fuel + 1) (pre ++ '\n' :: post) = nextLine fuel post := by
          rw [nextLine]
          simp only [readLine_nl pre post hpre, he]
          simp [lengthNL]
        rw [hnext]
        have := ih post hlen2
        cases hfl : firstLine post with
        | none =>
          rw [hfl] at this
          exact this
        | some l =>
          rw [hfl] at this
          obtain ⟨a, b, c, d, e⟩ := this
          refine ⟨a, b, ?_, ?_, e⟩
          · intro x hx
            simp [c x hx]
          · simp; omega
      · rw [hf, if_neg he]
        refine ⟨he, hn', ?_, ?_, ['\n'], post, Or.inr rfl, ?_⟩
        · intro x hx
          simp [stripCR_subset pre x hx]
        · have := stripCR_length pre
          simp only [List.length_append, List.length_cons]; omega
        · rw [nextLine]
          simp only [readLine_nl pre post hpre]
          have : ¬ ((stripCR pre ++ ['\n']).length = lengthNL (stripCR pre ++ ['\n'])) := by
            rw [lengthNL_append_nl]
            have := List.length_pos.mpr he
            simp only [List.length_append, List.length_cons, List.length_nil]; omega
          rw [if_neg (fun h => this h.2)]

end csv

/-! ## The recursion budget of the csv model is always enough -/

namespace csv

theorem readLine_length (s : List Char) :
    (readLine s).1.length + (readLine s).2.2.length ≤ s.length := by
  by_cases hs : s = []
  · subst hs
    rw [readLine_nil]
    simp
  cases hi : indexByte s '\n' with
  | none =>
    have hn : '\n' ∉ s := indexByte_eq_none.mp hi
    rw [readLine_last hn hs]
    simpa using stripCR_length s
  | some i =>
    obtain ⟨hpre, hdec⟩ := indexByte_eq_some hi
    rw [hdec, readLine_nl _ _ hpre]
    have := stripCR_length (s.take i)
    simp only [List.length_append, List.length_cons, List.length_nil]
    omega

theorem nextLine_length (fuel : Nat) :
    ∀ (s : List Char) (r : List Char × Option GoError × List Char),
      nextLine fuel s = some r → r.1.length + r.2.2.length ≤ s.length := by
  induction fuel with
  | zero => intro s r h; simp [nextLine] at h
  | succ fuel ih =>
    intro s r h
    rw [nextLine] at h
    have hl := readLine_length s
    split_ifs at h with hc
    · have := ih _ _ h
      omega
    · simp only [Option.some.injEq] at h
      subst h
      exact hl

theorem nextLine_isSome (s : List Char) : (nextLine (s.length + 1) s).isSome := by
  have h := nextLine_spec (s.length + 1) s (Nat.lt_succ_self _)
  cases hf : firstLine s with
  | none =>
    rw [hf] at h
    obtain ⟨line, rest, hn⟩ := h
    simp [hn]
  | some l =>
    rw [hf] at h
    obtain ⟨_, _, _, _, nl, rest, _, hn⟩ := h
    simp [hn]

/-- With a budget above the number of characters left, `parseField` never
stops for lack of budget. -/
theorem parseField_ne_csvFuel (fuel : Nat) :
    ∀ (quoted : Bool) (line input buf : List Char) (fields : List (List Char)),
      line.length + input.length < fuel →
      parseField ' ' fuel quoted line input buf fields ≠ Except.error GoError.csvFuel := by
  induction fuel with
  | zero => intro q line input buf fields h; omega
  | succ fuel ih =>
    intro q line input buf fields hlen
    cases q with
    | false =>
      rw [parseField]
      split_ifs with hh
      · apply ih
        cases line with
        | nil => simp at hh
        | cons x xs => simp at hlen ⊢; omega
      · cases hi : indexByte line ' ' with
        | none =>
          simp only
          split_ifs <;> simp
        | some i =>
          simp only
          split_ifs
          · simp
          · apply ih
            have hpos : 0 < line.length := by
              cases line with
              | nil => simp [indexByte] at hi
              | cons x xs => simp
            simp only [List.length_drop]
            omega
    | true =>
      rw [parseField]
      cases hi : indexByte line '"' with
      | none =>
        simp only
        split_ifs with hl
        · apply ih
          have := readLine_length input
          omega
        · simp
      | some i =>
        simp only
        have hpos : 0 < line.length := by
          cases line with
          | nil => simp [indexByte] at hi
          | cons x xs => simp
        split_ifs
        · apply ih
          simp only [List.length_drop]
          omega
        · apply ih
          simp only [List.length_drop]
          omega
        · simp
        · simp

theorem Read_ne_csvFuel (s : List Char) : Read ' ' s ≠ Except.error GoError.csvFuel := by
  unfold Read
  have h1 := nextLine_isSome s
  cases hn : nextLine (s.length + 1) s with
  | none => rw [hn] at h1; simp at h1
  | some r =>
    obtain ⟨line, errRead, rest⟩ := r
    have h2 := nextLine_length _ _ _ hn
    simp only
    split_ifs
    · simp
    · exact parseField_ne_csvFuel _ _ _ _ _ _ (by simp only at h2; omega)

end csv

/-- The recursion budget of the csv model is enough for every input: the
budget error never comes out of `getCmdArgs`. -/
theorem getCmdArgs_ne_csvFuel (args : String) :
    getCmdArgs args ≠ Except.error GoError.csvFuel := by
  unfold getCmdArgs
  split_ifs
  · simp
  · have := csv.Read_ne_csvFuel args.data
    cases h : csv.Read ' ' args.data with
    | ok r => simp
    | error e =>
      rw [h] at this
      simp only
      intro hc
      apply this
      injection hc with hc
      rw [hc]

/-! ## Tokens written on a command line are read back -/

namespace csv

theorem intercalate_cons_cons (sep x y : List Char) (ys : List (List Char)) :
    sep.intercalate (x :: y :: ys) = x ++ sep ++ sep.intercalate (y :: ys) := by
  simp [List.intercalate, List.intersperse]

theorem intercalate_single (sep x : List Char) : sep.intercalate [x] = x := by
  simp [List.intercalate, List.intersperse]

/-- One written token followed by `tl`, which is empty or starts with the
separating space: the parser adds the token to the fields and goes on after
the space. -/
theorem parseField_token (fuel : Nat) (t input buf : List Char)
    (fields : List (List Char)) (hne : t ≠ []) (hq : '"' ∉ t) (hn : '\n' ∉ t) :
    parseField ' ' (fuel + 2) false (quoteArg t) input buf fields
      = Except.ok (fields ++ [t]) ∧
    ∀ rest, ∃ fuel', fuel ≤ fuel' ∧
      parseField ' ' (fuel + 2) false (quoteArg t ++ ' ' :: rest) input buf fields
        = parseField ' ' fuel' false rest input [] (fields ++ [t]) := by
  have hnq : (indexByte t '"').isSome = false := by
    rw [← Bool.not_eq_true, indexByte_isSome]; exact hq
  by_cases hsp : ' ' ∈ t
  · -- the token is written in quotes
    have hqa : quoteArg t = '"' :: (t ++ ['"']) := by simp [quoteArg, hsp]
    rw [hqa]
    constructor
    · rw [parseField]
      simp only [List.head?_cons, if_true, List.drop_succ_cons, List.drop_zero]
      rw [parseField]
      rw [show t ++ ['"'] = t ++ '"' :: [] from rfl, indexByte_append _ _ _ hq]
      simp [lengthNL]
    · intro rest
      refine ⟨fuel, Nat.le_refl _, ?_⟩
      rw [parseField]
      simp only [List.cons_append, List.head?_cons, if_true, List.drop_succ_cons,
        List.drop_zero]
      rw [parseField]
      rw [show t ++ ['"'] ++ ' ' :: rest = t ++ '"' :: (' ' :: rest) by simp,
        indexByte_append _ _ _ hq]
      simp
  · -- the token is written as it is
    have hqa : quoteArg t = t := by simp [quoteArg, hsp]
    rw [hqa]
    have hhead : ∀ tl : List Char, (t ++ tl).head? ≠ some '"' := by
      intro tl h
      cases t with
      | nil => exact hne rfl
      | cons x xs =>
        simp at h
        exact hq (by simp [h])
    constructor
    · rw [parseField]
      have := hhead []
      rw [List.append_nil] at this
      rw [if_neg this, indexByte_eq_none.mpr hsp]
      simp [lengthNL_of_not_mem hn, hnq]
    · intro rest
      refine ⟨fuel + 1, Nat.le_succ _, ?_⟩
      rw [parseField]
      rw [if_neg (hhead _), indexByte_append _ _ _ hsp]
      simp [hnq]

/-- The written form of a list of tokens parses back into the tokens. -/
theorem parseField_tokens (toks : List (List Char)) :
    toks ≠ [] → (∀ t ∈ toks, t ≠ [] ∧ '"' ∉ t ∧ '\n' ∉ t) →
    ∀ (fuel : Nat) (input buf : List Char) (fields : List (List Char)),
      ([' '].intercalate (toks.map quoteArg)).length < fuel →
      parseField ' ' fuel false ([' '].intercalate (toks.map quoteArg)) input buf fields
        = Except.ok (fields ++ toks) := by
  induction toks with
  | nil => intro h; exact absurd rfl h
  | cons t ts ih =>
    intro _ hall fuel input buf fields hlen
    obtain ⟨hne, hq, hn⟩ := hall t (by simp)
    have hqlen : t.length ≤ (quoteArg t).length := by
      unfold quoteArg
      split_ifs
      · simp only [List.length_cons, List.length_append, List.length_nil]; omega
      · exact Nat.le_refl _
    have htpos : 0 < t.length := List.length_pos.mpr hne
    cases ts with
    | nil =>
      simp only [List.map_cons, List.map_nil, intercalate_single] at hlen ⊢
      obtain ⟨f, rfl⟩ : ∃ f, fuel = f + 2 := ⟨fuel - 2, by
        have : 2 ≤ (quoteArg t).length + 1 := by omega
        omega⟩
      exact (parseField_token f t input buf fields hne hq hn).1
    | cons u us =>
      simp only [List.map_cons, intercalate_cons_cons] at hlen ⊢
      rw [List.append_assoc, List.singleton_append] at hlen ⊢
      rw [List.length_append, List.length_cons] at hlen
      obtain ⟨f, rfl⟩ : ∃ f, fuel = f + 2 := ⟨fuel - 2, by omega⟩
      obtain ⟨f', hf', heq⟩ :=
        (parseField_token f t input buf fields hne hq hn).2
          ([' '].intercalate (quoteArg u :: List.map quoteArg us))
      rw [heq]
      have := ih (by simp) (fun x hx => hall x (by simp [List.mem_cons] at hx ⊢; tauto))
        f' input [] (fields ++ [t])
        (by simp only [List.map_cons]; omega)
      simp only [List.map_cons] at this
      rw [this]
      simp

theorem mem_intercalate {c : Char} {sep : List Char} {xs : List (List Char)}
    (h : c ∈ sep.intercalate xs) : c ∈ sep ∨ ∃ x ∈ xs, c ∈ x := by
  induction xs with
  | nil => simp [List.intercalate, List.intersperse] at h
  | cons x xs ih =>
    cases xs with
    | nil =>
      rw [intercalate_single] at h
      exact Or.inr ⟨x, by simp, h⟩
    | cons y ys =>
      rw [intercalate_cons_cons] at h
      rcases List.mem_append.mp h with h1 | h2
      · rcases List.mem_append.mp h1 with h3 | h4
        · exact Or.inr ⟨x, by simp, h3⟩
        · exact Or.inl h4
      · rcases ih h2 with h5 | ⟨z, hz, hc⟩
        · exact Or.inl h5
        · exact Or.inr ⟨z, List.mem_cons_of_mem _ hz, hc⟩

theorem mem_quoteArg {c : Char} {t : List Char} (h : c ∈ quoteArg t) : c = '"' ∨ c ∈ t := by
  unfold quoteArg at h
  split_ifs at h
  · simp at h
    tauto
  · exact Or.inr h

theorem stripCR_of_not_mem {l : List Char} (h : '\r' ∉ l) : stripCR l = l := by
  unfold stripCR
  rw [if_neg]
  intro hl
  exact h (List.mem_of_getLast?_eq_some hl)

/-- A text of a single line is parsed less one trailing carriage return, when
something is left of it. -/
theorem nextLine_single (fuel : Nat) (l : List Char) (hn : '\n' ∉ l)
    (hr : stripCR l ≠ []) : nextLine (fuel + 1) l = some (stripCR l, none, []) := by
  have hne : l ≠ [] := by
    intro h
    subst h
    exact hr rfl
  rw [nextLine]
  simp only [readLine_last hn hne]
  rw [if_neg]
  intro h
  rw [lengthNL_of_not_mem (fun e => hn (stripCR_subset l _ e))] at h
  exact hr (List.length_eq_zero.mp h.2)

end csv

/-- C6: for every non-empty list of tokens, each a non-empty string without
double quote, line feed or carriage return, `getCmdArgs` applied to the tokens
joined by single spaces, every token that contains a space being wrapped in
double quotes, returns exactly the original tokens. -/
theorem getCmdArgs_joinArgs (toks : List String) (hne : toks ≠ [])
    (htok : ∀ t ∈ toks, t ≠ "" ∧ '"' ∉ t.data ∧ '\n' ∉ t.data ∧ '\r' ∉ t.data) :
    getCmdArgs (joinArgs toks) = Except.ok toks := by
  have hmap : toks.map (fun t => quoteArg t.data) = (toks.map String.data).map quoteArg := by
    simp
  have hall : ∀ t ∈ toks.map String.data, t ≠ [] ∧ '"' ∉ t ∧ '\n' ∉ t := by
    intro t ht
    obtain ⟨s, hs, rfl⟩ := List.mem_map.mp ht
    obtain ⟨h1, h2, h3, _⟩ := htok s hs
    refine ⟨?_, h2, h3⟩
    intro hd
    apply h1
    cases s
    simp_all
  have hne2 : toks.map String.data ≠ [] := by simpa using hne
  set line := [' '].intercalate ((toks.map String.data).map quoteArg) with hline
  have hmem : ∀ c ∈ line, c = ' ' ∨ c = '"' ∨ ∃ s ∈ toks, c ∈ s.data := by
    intro c hc
    rcases csv.mem_intercalate hc with h1 | ⟨x, hx, hcx⟩
    · left; simpa using h1
    · obtain ⟨t, ht, rfl⟩ := List.mem_map.mp hx
      obtain ⟨s, hs, rfl⟩ := List.mem_map.mp ht
      rcases csv.mem_quoteArg hcx with h2 | h3
      · exact Or.inr (Or.inl h2)
      · exact Or.inr (Or.inr ⟨s, hs, h3⟩)
  have hnl : '\n' ∉ line := by
    intro hc
    rcases hmem _ hc with h | h | ⟨s, hs, h⟩
    · exact absurd h (by decide)
    · exact absurd h (by decide)
    · exact (htok s hs).2.2.1 h
  have hcr : '\r' ∉ line := by
    intro hc
    rcases hmem _ hc with h | h | ⟨s, hs, h⟩
    · exact absurd h (by decide)
    · exact absurd h (by decide)
    · exact (htok s hs).2.2.2 h
  have hlne : line ≠ [] := by
    cases htoks : toks with
    | nil => exact absurd htoks hne
    | cons t ts =>
      have ht := (hall t.data (by simp [htoks])).1
      have hq : quoteArg t.data ≠ [] := by
        unfold quoteArg
        split_ifs
        · simp
        · exact ht
      rw [hline, htoks]
      cases ts with
      | nil => simpa [csv.intercalate_single] using hq
      | cons u us =>
        simp only [List.map_cons, csv.intercalate_cons_cons]
        simp [hq]
  unfold getCmdArgs joinArgs
  rw [hmap, ← hline]
  have hs : String.mk line ≠ "" := by
    intro h
    apply hlne
    have := congrArg String.data h
    simpa using this
  rw [if_neg hs]
  simp only
  unfold csv.Read
  rw [csv.nextLine_single _ line hnl (by rw [csv.stripCR_of_not_mem hcr]; exact hlne),
    csv.stripCR_of_not_mem hcr]
  simp only [reduceCtorEq, if_false]
  rw [hline, csv.parseField_tokens _ hne2 hall _ _ _ _ (by rw [← hline]; omega)]
  simp [Function.comp_def]

/-- Witness for C6: the tokens `a`, `b c`, `d`, written `a "b c" d`. -/
theorem getCmdArgs_joinArgs_witness :
    joinArgs ["a", "b c", "d"] = "a \"b c\" d" ∧
    getCmdArgs "a \"b c\" d" = Except.ok ["a", "b c", "d"] :=
  ⟨by decide, getCmdArgs_joinArgs ["a", "b c", "d"] (by decide) (by decide)⟩

/-! ## Arguments without double quotes -/

theorem csv.not_mem_of_mem_splitOn (c : Char) (n : Nat) :
    ∀ l : List Char, l.length ≤ n → ∀ f ∈ l.splitOn c, c ∉ f := by
  induction n with
  | zero =>
    intro l hl f hf
    have : l = [] := List.length_eq_zero.mp (Nat.le_zero.mp hl)
    subst this
    rw [csv.splitOn_of_not_mem c [] (by simp)] at hf
    simp at hf
    subst hf
    simp
  | succ n ih =>
    intro l hl f hf
    cases hi : csv.indexByte l c with
    | none =>
      have hc : c ∉ l := csv.indexByte_eq_none.mp hi
      rw [csv.splitOn_of_not_mem c l hc] at hf
      simp at hf
      subst hf
      exact hc
    | some i =>
      obtain ⟨hpre, hdec⟩ := csv.indexByte_eq_some hi
      rw [hdec, csv.splitOn_first c _ _ hpre] at hf
      rcases List.mem_cons.mp hf with rfl | hmem
      · exact hpre
      · refine ih (l.drop (i + 1)) ?_ f hmem
        have hpos : 0 < l.length := by
          cases l with
          | nil => simp [csv.indexByte] at hi
          | cons x xs => simp
        simp only [List.length_drop]
        omega

theorem csv.Read_without_quotes (s : List Char) (hq : '"' ∉ s) :
    csv.Read ' ' s =
      match csv.firstLine s with
      | none => Except.error GoError.eof
      | some line => Except.ok (line.splitOn ' ') := by
  have h := csv.nextLine_spec (s.length + 1) s (Nat.lt_succ_self _)
  unfold csv.Read
  cases hf : csv.firstLine s with
  | none =>
    rw [hf] at h
    obtain ⟨line, rest, hn⟩ := h
    simp [hn]
  | some l =>
    rw [hf] at h
    obtain ⟨_, hnl, hsub, hlen, nl, rest, hnl2, hn⟩ := h
    rw [hn]
    simp only [reduceCtorEq, if_false]
    rw [csv.parseField_plain _ l nl rest [] [] (fun e => hq (hsub _ e)) hnl hnl2
      (by omega)]
    simp

/-- C7, as amended: for every argument string without double quote, the empty
string yields the empty list; any other string is read up to its first line
that is not empty (lines end at a line feed, one carriage return before the
line feed or before the end is dropped): when there is no such line
`getCmdArgs` returns `io.EOF`, else it succeeds and returns the pieces of that
line between its single space characters, in order.  No returned token
contains a space; a token may be empty and may contain other whitespace. -/
theorem getCmdArgs_without_quotes (args : String) (hq : '"' ∉ args.data) :
    getCmdArgs args =
      (if args = "" then Except.ok []
       else
        match csv.firstLine args.data with
        | none => Except.error GoError.eof
        | some line => Except.ok ((line.splitOn ' ').map String.mk)) ∧
    ∀ tokens, getCmdArgs args = Except.ok tokens → ∀ t ∈ tokens, ' ' ∉ t.data := by
  have h1 : getCmdArgs args =
      (if args = "" then Except.ok []
       else
        match csv.firstLine args.data with
        | none => Except.error GoError.eof
        | some line => Except.ok ((line.splitOn ' ').map String.mk)) := by
    unfold getCmdArgs
    split_ifs with he
    · rfl
    · rw [csv.Read_without_quotes _ hq]
      cases csv.firstLine args.data <;> rfl
  refine ⟨h1, ?_⟩
  intro tokens htok t ht
  rw [h1] at htok
  split_ifs at htok with he
  · injection htok with e
    subst e
    simp at ht
  · cases hf : csv.firstLine args.data with
    | none => rw [hf] at htok; simp at htok
    | some line =>
      rw [hf] at htok
      injection htok with e
      subst e
      simp only [List.mem_map] at ht
      obtain ⟨f, hfmem, rfl⟩ := ht
      exact csv.not_mem_of_mem_splitOn ' ' _ line (Nat.le_refl _) f hfmem

/-- C7 as stated fails: `a  b` (two spaces) has no double quote, yet the result
has an empty token and is not the list of the whitespace-separated tokens; a
tab does not separate tokens; and a lone line feed makes `getCmdArgs` fail. -/
theorem getCmdArgs_whitespace_counterexample :
    getCmdArgs "a  b" = Except.ok ["a", "", "b"] ∧
    getCmdArgs "a  b" ≠ Except.ok (whitespaceTokens "a  b") ∧
    getCmdArgs "a\tb" = Except.ok ["a\tb"] ∧
    getCmdArgs "\n" = Except.error GoError.eof := by
  decide

/-- Witness for C7 as amended: two spaces in a row give an empty token. -/
theorem getCmdArgs_without_quotes_witness :
    getCmdArgs "a  b" = Except.ok ["a", "", "b"] :=
  (getCmdArgs_without_quotes "a  b" (by decide)).1.trans (by decide)

/-! ## Unterminated quoting -/

namespace csv

theorem count_decomp {l : List Char} {c : Char} {i : Nat}
    (hdec : l = l.take i ++ c :: l.drop (i + 1)) (d : Char) :
    l.count d = (l.take i).count d + (if c = d then 1 else 0) + (l.drop (i + 1)).count d := by
  conv_lhs => rw [hdec]
  rw [List.count_append, List.count_cons]
  simp only [beq_iff_eq]
  omega

theorem parseField_parity (fuel : Nat) :
    ∀ (quoted : Bool) (line buf : List Char) (fields : List (List Char)),
      '\n' ∉ line → line.length < fuel →
      parityOk quoted line (parseField ' ' fuel quoted line [] buf fields) := by
  induction fuel with
  | zero => intro q line buf fields _ h; omega
  | succ fuel ih =>
    intro q line buf fields hn hlen
    cases q with
    | false =>
      rw [parseField]
      by_cases hh : line.head? = some '"'
      · rw [if_pos hh]
        cases line with
        | nil => simp at hh
        | cons x xs =>
          simp only [List.head?_cons, Option.some.injEq] at hh
          subst hh
          simp only [List.drop_succ_cons, List.drop_zero]
          have hxs : '\n' ∉ xs := fun e => hn (List.mem_cons_of_mem _ e)
          have := ih true xs [] fields hxs (by simp at hlen; omega)
          revert this
          cases parseField ' ' fuel true xs [] [] fields with
          | ok r =>
            simp only [parityOk, if_true, Bool.false_eq_true, if_false, List.count_cons_self]
            omega
          | error e => exact id
      · rw [if_neg hh]
        cases hi : indexByte line ' ' with
        | none =>
          simp only
          have htake : line.take (line.length - lengthNL line) = line := by
            rw [lengthNL_of_not_mem hn]; simp
          rw [htake]
          by_cases hq : (indexByte line '"').isSome
          · simp [hq, parityOk]
          · have hq' : '"' ∉ line := fun e => hq (indexByte_isSome.mpr e)
            simp [hq, parityOk, List.count_eq_zero_of_not_mem hq']
        | some i =>
          simp only
          obtain ⟨hpre, hdec⟩ := indexByte_eq_some hi
          by_cases hq : (indexByte (line.take i) '"').isSome
          · simp [hq, parityOk]
          · have hq' : '"' ∉ line.take i := fun e => hq (indexByte_isSome.mpr e)
            rw [if_neg hq]
            have hpos : 0 < line.length := by
              cases line with
              | nil => simp [indexByte] at hi
              | cons x xs => simp
            have hn2 : '\n' ∉ line.drop (i + 1) := fun e => hn (List.mem_of_mem_drop e)
            have := ih false (line.drop (i + 1)) [] (fields ++ [line.take i]) hn2
              (by simp only [List.length_drop]; omega)
            revert this
            cases parseField ' ' fuel false (line.drop (i + 1)) [] []
                (fields ++ [line.take i]) with
            | ok r =>
              simp only [parityOk, Bool.false_eq_true, if_false]
              intro h
              rw [count_decomp hdec '"', List.count_eq_zero_of_not_mem hq']
              simp [h]
            | error e => exact id
    | true =>
      rw [parseField]
      cases hi : indexByte line '"' with
      | none =>
        simp only
        by_cases hl : 0 < line.length
        · rw [if_pos hl]
          obtain ⟨f, rfl⟩ : ∃ f, fuel = f + 1 := ⟨fuel - 1, by omega⟩
          have : readLine [] = ([], some GoError.eof, []) := readLine_nil
          rw [this]
          simp only
          rw [parseField]
          simp [indexByte, parityOk]
        · rw [if_neg hl]
          simp [parityOk]
      | some i =>
        simp only
        obtain ⟨hpre, hdec⟩ := indexByte_eq_some hi
        have hcount := count_decomp hdec '"'
        rw [List.count_eq_zero_of_not_mem hpre] at hcount
        simp only [if_true, Nat.zero_add] at hcount
        have hpos : 0 < line.length := by
          cases line with
          | nil => simp [indexByte] at hi
          | cons x xs => simp
        have hn2 : '\n' ∉ line.drop (i + 1) := fun e => hn (List.mem_of_mem_drop e)
        have hlen2 : (line.drop (i + 1)).length < fuel + 1 := by
          simp only [List.length_drop]; omega
        generalize line.drop (i + 1) = post at hcount hn2 hlen2
        cases post with
        | nil =>
          simp [lengthNL, parityOk, hcount]
        | cons y ys =>
          have hys : '\n' ∉ ys := fun e => hn2 (List.mem_cons_of_mem _ e)
          have hylen : ys.length < fuel := by simp at hlen2; omega
          simp only [List.head?_cons, Option.some.injEq, List.drop_succ_cons, List.drop_zero]
          by_cases hy1 : y = '"'
          · subst hy1
            rw [if_pos rfl]
            have := ih true ys (buf ++ line.take i ++ ['"']) fields hys hylen
            revert this
            cases parseField ' ' fuel true ys [] (buf ++ line.take i ++ ['"']) fields with
            | ok r =>
              simp only [parityOk, if_true]
              intro h
              rw [hcount, List.count_cons_self]
              omega
            | error e => exact id
          · rw [if_neg hy1]
            by_cases hy2 : y = ' '
            · subst hy2
              rw [if_pos rfl]
              have := ih false ys [] (fields ++ [buf ++ line.take i]) hys hylen
              revert this
              cases parseField ' ' fuel false ys [] [] (fields ++ [buf ++ line.take i]) with
              | ok r =>
                simp only [parityOk, if_true, Bool.false_eq_true, if_false]
                intro h
                rw [hcount, List.count_cons_of_ne (by decide)]
                omega
              | error e => exact id
            · rw [if_neg hy2]
              have hnl : lengthNL (y :: ys) ≠ (y :: ys).length := by
                rw [lengthNL_of_not_mem hn2]; simp
              rw [if_neg hnl]
              simp [parityOk]

end csv

theorem csv.count_stripCR (l : List Char) : (csv.stripCR l).count '"' = l.count '"' := by
  unfold csv.stripCR
  split_ifs with h
  · obtain ⟨ys, rfl⟩ := List.getLast?_eq_some_iff.mp h
    simp
  · rfl

theorem csv.Read_odd_quotes (s : List Char) (hn : '\n' ∉ s) (hodd : s.count '"' % 2 = 1) :
    csv.Read ' ' s = Except.error GoError.csvQuote ∨
    csv.Read ' ' s = Except.error GoError.csvBareQuote := by
  have hcount : (csv.stripCR s).count '"' % 2 = 1 := by rw [csv.count_stripCR]; exact hodd
  have hne : csv.stripCR s ≠ [] := by
    intro h
    rw [h] at hcount
    simp at hcount
  unfold csv.Read
  rw [csv.nextLine_single _ s hn hne]
  simp only [reduceCtorEq, if_false]
  have hp := csv.parseField_parity (s.length + 1) false (csv.stripCR s) [] []
    (fun e => hn (csv.stripCR_subset s _ e))
    (Nat.lt_succ_of_le (csv.stripCR_length s))
  revert hp
  cases csv.parseField ' ' (s.length + 1) false (csv.stripCR s) [] [] [] with
  | ok r =>
    simp only [csv.parityOk, Bool.false_eq_true, if_false]
    intro h
    omega
  | error e =>
    simp only [csv.parityOk]
    rintro (rfl | rfl)
    · exact Or.inl rfl
    · exact Or.inr rfl

/-- C8: for every argument string without line feed that contains an odd number
of double quotes (unterminated quoting, as in `a "b`), `getCmdArgs` returns a
csv parse error and no argument list; and `signalProcess`, called without
reload callback while `processRunning` is 0, then returns that error wrapped
with "error parsing cmd arguments: ", having started no child and changed nothing
in the state. -/
theorem getCmdArgs_unterminated_quote_is_error (args : String)
    (hn : '\n' ∉ args.data) (hodd : args.data.count '"' % 2 = 1) :
    ∃ err, (err = GoError.csvQuote ∨ err = GoError.csvBareQuote) ∧
      getCmdArgs args = Except.error err ∧
      ∀ (env : Env) (st : State), st.s.config.CmdArgs = args →
        st.s.config.ReloadExternalProcess = none → st.s.processRunning = 0 →
        signalProcess env st
          = (st, some (GoError.wrap "error parsing cmd arguments: " err)) := by
  have hne : args ≠ "" := by
    intro h
    subst h
    simp at hodd
  have hread := csv.Read_odd_quotes args.data hn hodd
  have hget : ∀ err, csv.Read ' ' args.data = Except.error err →
      getCmdArgs args = Except.error err := by
    intro err h
    unfold getCmdArgs
    rw [if_neg hne, h]
  have hsig : ∀ err, getCmdArgs args = Except.error err →
      ∀ (env : Env) (st : State), st.s.config.CmdArgs = args →
        st.s.config.ReloadExternalProcess = none → st.s.processRunning = 0 →
        signalProcess env st
          = (st, some (GoError.wrap "error parsing cmd arguments: " err)) := by
    intro err h env st ha hh hr
    unfold signalProcess
    simp only [hh, hr, ha, h, if_true]
  rcases hread with h | h
  · exact ⟨_, Or.inl rfl, hget _ h, hsig _ (hget _ h)⟩
  · exact ⟨_, Or.inr rfl, hget _ h, hsig _ (hget _ h)⟩

/-- Witness for C8: the argument string `a "b`. -/
theorem getCmdArgs_unterminated_quote_is_error_witness :
    ∃ err, (err = GoError.csvQuote ∨ err = GoError.csvBareQuote) ∧
      getCmdArgs "a \"b" = Except.error err ∧
      ∀ (env : Env) (st : State), st.s.config.CmdArgs = "a \"b" →
        st.s.config.ReloadExternalProcess = none → st.s.processRunning = 0 →
        signalProcess env st
          = (st, some (GoError.wrap "error parsing cmd arguments: " err)) :=
  getCmdArgs_unterminated_quote_is_error "a \"b" (by decide) (by decide)

/-! ## Configuration validation -/

theorem ValidateConfig.andThen_preserves (P : Config → Prop) (r : Config × Option GoError)
    (k : Config → Config × Option GoError) (hr : P r.1) (hk : ∀ c, P c → P (k c).1) :
    P (ValidateConfig.andThen r k).1 := by
  unfold ValidateConfig.andThen
  split
  · exact hr
  · exact hk _ hr

/-- A property of configurations that the log assignment and each block of
`ValidateConfig` preserve is preserved by `ValidateConfig`. -/
theorem ValidateConfig_preserves (P : Config → Prop) (v : Config → Option GoError)
    (c : Config) (h0 : P c)
    (hlog : ∀ c l, P c → P { c with Log := l })
    (h1 : ∀ c, P c → P (ValidateConfig.agentAddress c).1)
    (h2 : ∀ c, P c → P (ValidateConfig.cmdArgs c).1)
    (h3 : ∀ c, P c → P (ValidateConfig.certDir c).1)
    (h4 : ∀ c, P c → P (ValidateConfig.svidFileName c).1)
    (h5 : ∀ c, P c → P (ValidateConfig.svidKeyFileName c).1)
    (h6 : ∀ c, P c → P (ValidateConfig.svidBundleFileName c).1)
    (h7 : ∀ c, P c → P (ValidateConfig.renewSignal c).1) :
    P (ValidateConfig v c).1 := by
  unfold ValidateConfig
  split
  · exact h0
  · have hc : P (if c.Log.isNone then { c with Log := some [] } else c) := by
      split_ifs
      · exact hlog c _ h0
      · exact h0
    refine ValidateConfig.andThen_preserves P _ _ (h1 _ hc) fun c1 p1 => ?_
    refine ValidateConfig.andThen_preserves P _ _ (h2 _ p1) fun c2 p2 => ?_
    refine ValidateConfig.andThen_preserves P _ _ (h3 _ p2) fun c3 p3 => ?_
    refine ValidateConfig.andThen_preserves P _ _ (h4 _ p3) fun c4 p4 => ?_
    refine ValidateConfig.andThen_preserves P _ _ (h5 _ p4) fun c5 p5 => ?_
    refine ValidateConfig.andThen_preserves P _ _ (h6 _ p5) fun c6 p6 => ?_
    refine ValidateConfig.andThen_preserves P _ _ (h7 _ p6) fun c7 p7 => ?_
    unfold ValidateConfig.required
    split_ifs <;> exact p7

/-- `ValidateConfig` never writes the canonical add-intermediates flag and
never reads the legacy one: both are as before, whatever the call returns. -/
theorem ValidateConfig_keeps_addIntermediates (v : Config → Option GoError) (c : Config) :
    (ValidateConfig v c).1.AddIntermediatesToBundle = c.AddIntermediatesToBundle ∧
    (ValidateConfig v c).1.AddIntermediatesToBundleDeprecated
      = c.AddIntermediatesToBundleDeprecated := by
  refine ValidateConfig_preserves
    (fun c' => c'.AddIntermediatesToBundle = c.AddIntermediatesToBundle ∧
      c'.AddIntermediatesToBundleDeprecated = c.AddIntermediatesToBundleDeprecated)
    v c ⟨rfl, rfl⟩ (fun _ _ h => h) ?_ ?_ ?_ ?_ ?_ ?_ ?_
  · intro c' h
    unfold ValidateConfig.agentAddress Warnf
    split_ifs <;> exact h
  · intro c' h
    unfold ValidateConfig.cmdArgs Warnf
    split_ifs <;> exact h
  · intro c' h
    unfold ValidateConfig.certDir Warnf
    split_ifs <;> exact h
  · intro c' h
    unfold ValidateConfig.svidFileName Warnf
    split_ifs <;> exact h
  · intro c' h
    unfold ValidateConfig.svidKeyFileName Warnf
    split_ifs <;> exact h
  · intro c' h
    unfold ValidateConfig.svidBundleFileName Warnf
    split_ifs <;> exact h
  · intro c' h
    unfold ValidateConfig.renewSignal Warnf
    split_ifs <;> exact h

namespace ValidateConfig

theorem andThen_none (r : Config × Option GoError) (k : Config → Config × Option GoError) :
    (andThen r k).2 = none ↔ r.2 = none ∧ (k r.1).2 = none := by
  unfold andThen
  cases h : r.2 with
  | none => simp
  | some e => simp [h]

theorem andThen_of_none (r : Config × Option GoError) (k : Config → Config × Option GoError)
    (h : r.2 = none) : andThen r k = k r.1 := by
  unfold andThen
  rw [h]

theorem required_fst (c : Config) : (required c).1 = c := by
  unfold required
  split_ifs <;> rfl

theorem required_none (c : Config) :
    (required c).2 = none ↔
      c.AgentAddress ≠ "" ∧ c.SvidFileName ≠ "" ∧ c.SvidKeyFileName ≠ ""
        ∧ c.SvidBundleFileName ≠ "" := by
  unfold required
  split_ifs <;> simp_all

theorem agentAddress_fst (c : Config) :
    (agentAddress c).1 =
      if c.AgentAddressDeprecated ≠ "" ∧ c.AgentAddress = "" then
        { Warnf c (GetWarning "agentAddress" "agent_address") with AgentAddress := c.AgentAddressDeprecated }
      else c := by
  unfold agentAddress Warnf
  split_ifs <;> simp_all

theorem agentAddress_none (c : Config) :
    (agentAddress c).2 = none ↔ ¬ (c.AgentAddressDeprecated ≠ "" ∧ c.AgentAddress ≠ "") := by
  unfold agentAddress
  split_ifs <;> simp_all

theorem cmdArgs_fst (c : Config) :
    (cmdArgs c).1 =
      if c.CmdArgsDeprecated ≠ "" ∧ c.CmdArgs = "" then
        { Warnf c (GetWarning "cmdArgs" "cmd_args") with CmdArgs := c.CmdArgsDeprecated }
      else c := by
  unfold cmdArgs Warnf
  split_ifs <;> simp_all

theorem cmdArgs_none (c : Config) :
    (cmdArgs c).2 = none ↔ ¬ (c.CmdArgsDeprecated ≠ "" ∧ c.CmdArgs ≠ "") := by
  unfold cmdArgs
  split_ifs <;> simp_all

theorem certDir_fst (c : Config) :
    (certDir c).1 =
      if c.CertDirDeprecated ≠ "" ∧ c.CertDir = "" then
        { Warnf c (GetWarning "certDir" "cert_dir") with CertDir := c.CertDirDeprecated }
      else c := by
  unfold certDir Warnf
  split_ifs <;> simp_all

theorem certDir_none (c : Config) :
    (certDir c).2 = none ↔ ¬ (c.CertDirDeprecated ≠ "" ∧ c.CertDir ≠ "") := by
  unfold certDir
  split_ifs <;> simp_all

theorem svidFileName_fst (c : Config) :
    (svidFileName c).1 =
      if c.SvidFileNameDeprecated ≠ "" ∧ c.SvidFileName = "" then
        { Warnf c (GetWarning "svidFileName" "svid_file_name") with SvidFileName := c.SvidFileNameDeprecated }
      else c := by
  unfold svidFileName Warnf
  split_ifs <;> simp_all

theorem svidFileName_none (c : Config) :
    (svidFileName c).2 = none ↔ ¬ (c.SvidFileNameDeprecated ≠ "" ∧ c.SvidFileName ≠ "") := by
  unfold svidFileName
  split_ifs <;> simp_all

theorem svidKeyFileName_fst (c : Config) :
    (svidKeyFileName c).1 =
      if c.SvidKeyFileNameDeprecated ≠ "" ∧ c.SvidKeyFileName = "" then
        { Warnf c (GetWarning "svidKeyFileName" "svid_key_file_name") with SvidKeyFileName := c.SvidKeyFileNameDeprecated }
      else c := by
  unfold svidKeyFileName Warnf
  split_ifs <;> simp_all

theorem svidKeyFileName_none (c : Config) :
    (svidKeyFileName c).2 = none ↔ ¬ (c.SvidKeyFileNameDeprecated ≠ "" ∧ c.SvidKeyFileName ≠ "") := by
  unfold svidKeyFileName
  split_ifs <;> simp_all

theorem svidBundleFileName_fst (c : Config) :
    (svidBundleFileName c).1 =
      if c.SvidBundleFileNameDeprecated ≠ "" ∧ c.SvidBundleFileName = "" then
        { Warnf c (GetWarning "svidBundleFileName" "svid_bundle_file_name") with SvidBundleFileName := c.SvidBundleFileNameDeprecated }
      else c := by
  unfold svidBundleFileName Warnf
  split_ifs <;> simp_all

theorem svidBundleFileName_none (c : Config) :
    (svidBundleFileName c).2 = none ↔ ¬ (c.SvidBundleFileNameDeprecated ≠ "" ∧ c.SvidBundleFileName ≠ "") := by
  unfold svidBundleFileName
  split_ifs <;> simp_all

theorem renewSignal_fst (c : Config) :
    (renewSignal c).1 =
      if c.RenewSignalDeprecated ≠ "" ∧ c.RenewSignal = "" then
        { Warnf c (GetWarning "renewSignal" "renew_signal") with RenewSignal := c.RenewSignalDeprecated }
      else c := by
  unfold renewSignal Warnf
  split_ifs <;> simp_all

theorem renewSignal_none (c : Config) :
    (renewSignal c).2 = none ↔ ¬ (c.RenewSignalDeprecated ≠ "" ∧ c.RenewSignal ≠ "") := by
  unfold renewSignal
  split_ifs <;> simp_all

end ValidateConfig

/-- When `ValidateConfig` returns nil: the operating system check passed, no
string concept had both forms set, and the result holds the resolved value of
every string concept, with the legacy fields and `Cmd` as they were. -/
theorem ValidateConfig_nil_spec (v : Config → Option GoError) (c : Config)
    (h : (ValidateConfig v c).2 = none) :
    v c = none ∧
    (
      ¬ (c.AgentAddressDeprecated ≠ "" ∧ c.AgentAddress ≠ "") ∧
      ¬ (c.CmdArgsDeprecated ≠ "" ∧ c.CmdArgs ≠ "") ∧
      ¬ (c.CertDirDeprecated ≠ "" ∧ c.CertDir ≠ "") ∧
      ¬ (c.SvidFileNameDeprecated ≠ "" ∧ c.SvidFileName ≠ "") ∧
      ¬ (c.SvidKeyFileNameDeprecated ≠ "" ∧ c.SvidKeyFileName ≠ "") ∧
      ¬ (c.SvidBundleFileNameDeprecated ≠ "" ∧ c.SvidBundleFileName ≠ "") ∧
      ¬ (c.RenewSignalDeprecated ≠ "" ∧ c.RenewSignal ≠ "")) ∧
    ((ValidateConfig v c).1.AgentAddress = resolved c.AgentAddressDeprecated c.AgentAddress ∧
      (ValidateConfig v c).1.CmdArgs = resolved c.CmdArgsDeprecated c.CmdArgs ∧
      (ValidateConfig v c).1.CertDir = resolved c.CertDirDeprecated c.CertDir ∧
      (ValidateConfig v c).1.SvidFileName
        = resolved c.SvidFileNameDeprecated c.SvidFileName ∧
      (ValidateConfig v c).1.SvidKeyFileName
        = resolved c.SvidKeyFileNameDeprecated c.SvidKeyFileName ∧
      (ValidateConfig v c).1.SvidBundleFileName
        = resolved c.SvidBundleFileNameDeprecated c.SvidBundleFileName ∧
      (ValidateConfig v c).1.RenewSignal = resolved c.RenewSignalDeprecated c.RenewSignal) ∧
    ((ValidateConfig v c).1.AgentAddress ≠ "" ∧ (ValidateConfig v c).1.SvidFileName ≠ "" ∧
      (ValidateConfig v c).1.SvidKeyFileName ≠ "" ∧
      (ValidateConfig v c).1.SvidBundleFileName ≠ "") ∧
    ((ValidateConfig v c).1.AgentAddressDeprecated = c.AgentAddressDeprecated ∧
      (ValidateConfig v c).1.CmdArgsDeprecated = c.CmdArgsDeprecated ∧
      (ValidateConfig v c).1.CertDirDeprecated = c.CertDirDeprecated ∧
      (ValidateConfig v c).1.SvidFileNameDeprecated = c.SvidFileNameDeprecated ∧
      (ValidateConfig v c).1.SvidKeyFileNameDeprecated = c.SvidKeyFileNameDeprecated ∧
      (ValidateConfig v c).1.SvidBundleFileNameDeprecated
        = c.SvidBundleFileNameDeprecated ∧
      (ValidateConfig v c).1.RenewSignalDeprecated = c.RenewSignalDeprecated ∧
      (ValidateConfig v c).1.Cmd = c.Cmd) := by
  have hv : v c = none := by
    unfold ValidateConfig at h
    cases hv : v c with
    | none => rfl
    | some e => simp [hv] at h
  unfold ValidateConfig at h ⊢
  simp only [hv] at h ⊢
  simp only [ValidateConfig.andThen_none] at h
  obtain ⟨h1, h2, h3, h4, h5, h6, h7, h8⟩ := h
  rw [ValidateConfig.andThen_of_none _ _ h1, ValidateConfig.andThen_of_none _ _ h2,
    ValidateConfig.andThen_of_none _ _ h3, ValidateConfig.andThen_of_none _ _ h4,
    ValidateConfig.andThen_of_none _ _ h5, ValidateConfig.andThen_of_none _ _ h6,
    ValidateConfig.andThen_of_none _ _ h7, ValidateConfig.required_fst]
  rw [ValidateConfig.required_none] at h8
  simp only [
    ValidateConfig.agentAddress_none, ValidateConfig.cmdArgs_none,
    ValidateConfig.certDir_none, ValidateConfig.svidFileName_none,
    ValidateConfig.svidKeyFileName_none, ValidateConfig.svidBundleFileName_none,
    ValidateConfig.renewSignal_none] at h1 h2 h3 h4 h5 h6 h7
  simp only [
    ValidateConfig.agentAddress_fst, ValidateConfig.cmdArgs_fst,
    ValidateConfig.certDir_fst, ValidateConfig.svidFileName_fst,
    ValidateConfig.svidKeyFileName_fst, ValidateConfig.svidBundleFileName_fst,
    ValidateConfig.renewSignal_fst, apply_ite Config.AgentAddress,
    apply_ite Config.CmdArgs, apply_ite Config.CertDir, apply_ite Config.SvidFileName,
    apply_ite Config.SvidKeyFileName, apply_ite Config.SvidBundleFileName,
    apply_ite Config.RenewSignal, apply_ite Config.AgentAddressDeprecated,
    apply_ite Config.CmdArgsDeprecated, apply_ite Config.CertDirDeprecated,
    apply_ite Config.SvidFileNameDeprecated,
    apply_ite Config.SvidKeyFileNameDeprecated,
    apply_ite Config.SvidBundleFileNameDeprecated,
    apply_ite Config.RenewSignalDeprecated, apply_ite Config.Cmd, Warnf, ite_self] at h1 h2 h3 h4 h5 h6 h7 h8 ⊢
  have e : ∀ a b : String, ¬ (a ≠ "" ∧ b ≠ "") →
      (if a ≠ "" ∧ b = "" then a else b) = resolved a b := by
    intro a b hab
    unfold resolved
    by_cases ha : a = ""
    · simp [ha]
    · have hb : b = "" := by
        by_contra hb
        exact hab ⟨ha, hb⟩
      simp [ha, hb]
  rw [e _ _ h1, e _ _ h4, e _ _ h5, e _ _ h6] at h8
  exact ⟨trivial, ⟨h1, h2, h3, h4, h5, h6, h7⟩,
    ⟨e _ _ h1, e _ _ h2, e _ _ h3, e _ _ h4, e _ _ h5, e _ _ h6, e _ _ h7⟩,
    ⟨by rw [e _ _ h1]; exact h8.1, by rw [e _ _ h4]; exact h8.2.1,
      by rw [e _ _ h5]; exact h8.2.2.1, by rw [e _ _ h6]; exact h8.2.2.2⟩,
    ⟨trivial, trivial, trivial, trivial, trivial, trivial, trivial, trivial⟩⟩

/-- Conversely `ValidateConfig` returns nil when the operating system check
passes, no string concept has both forms set and the resolved agent address,
SVID, key and bundle file names are not empty. -/
theorem ValidateConfig_nil_of (v : Config → Option GoError) (c : Config)
    (hv : v c = none)
    (h1 : ¬ (c.AgentAddressDeprecated ≠ "" ∧ c.AgentAddress ≠ ""))
    (h2 : ¬ (c.CmdArgsDeprecated ≠ "" ∧ c.CmdArgs ≠ ""))
    (h3 : ¬ (c.CertDirDeprecated ≠ "" ∧ c.CertDir ≠ ""))
    (h4 : ¬ (c.SvidFileNameDeprecated ≠ "" ∧ c.SvidFileName ≠ ""))
    (h5 : ¬ (c.SvidKeyFileNameDeprecated ≠ "" ∧ c.SvidKeyFileName ≠ ""))
    (h6 : ¬ (c.SvidBundleFileNameDeprecated ≠ "" ∧ c.SvidBundleFileName ≠ ""))
    (h7 : ¬ (c.RenewSignalDeprecated ≠ "" ∧ c.RenewSignal ≠ ""))
    (r1 : resolved c.AgentAddressDeprecated c.AgentAddress ≠ "")
    (r2 : resolved c.SvidFileNameDeprecated c.SvidFileName ≠ "")
    (r3 : resolved c.SvidKeyFileNameDeprecated c.SvidKeyFileName ≠ "")
    (r4 : resolved c.SvidBundleFileNameDeprecated c.SvidBundleFileName ≠ "") :
    (ValidateConfig v c).2 = none := by
  have e : ∀ a b : String, ¬ (a ≠ "" ∧ b ≠ "") →
      (if a ≠ "" ∧ b = "" then a else b) = resolved a b := by
    intro a b hab
    unfold resolved
    by_cases ha : a = ""
    · simp [ha]
    · have hb : b = "" := by
        by_contra hb
        exact hab ⟨ha, hb⟩
      simp [ha, hb]
  unfold ValidateConfig
  simp only [hv]
  simp only [ValidateConfig.andThen_none]
  simp only [
    ValidateConfig.agentAddress_none, ValidateConfig.cmdArgs_none,
    ValidateConfig.certDir_none, ValidateConfig.svidFileName_none,
    ValidateConfig.svidKeyFileName_none, ValidateConfig.svidBundleFileName_none,
    ValidateConfig.renewSignal_none, ValidateConfig.required_none]
  simp only [
    ValidateConfig.agentAddress_fst, ValidateConfig.cmdArgs_fst,
    ValidateConfig.certDir_fst, ValidateConfig.svidFileName_fst,
    ValidateConfig.svidKeyFileName_fst, ValidateConfig.svidBundleFileName_fst,
    ValidateConfig.renewSignal_fst, apply_ite Config.AgentAddress,
    apply_ite Config.CmdArgs, apply_ite Config.CertDir, apply_ite Config.SvidFileName,
    apply_ite Config.SvidKeyFileName, apply_ite Config.SvidBundleFileName,
    apply_ite Config.RenewSignal, apply_ite Config.AgentAddressDeprecated,
    apply_ite Config.CmdArgsDeprecated, apply_ite Config.CertDirDeprecated,
    apply_ite Config.SvidFileNameDeprecated,
    apply_ite Config.SvidKeyFileNameDeprecated,
    apply_ite Config.SvidBundleFileNameDeprecated,
    apply_ite Config.RenewSignalDeprecated, apply_ite Config.Cmd, Warnf, ite_self]
  rw [e _ _ h1, e _ _ h4, e _ _ h5, e _ _ h6]
  exact ⟨h1, h2, h3, h4, h5, h6, h7, r1, r2, r3, r4⟩

/-- The part of the legacy migration that the code does carry out: when
`ValidateConfig` returns nil, each of the seven string concepts whose legacy
field is set has the legacy value in its canonical field afterwards. -/
theorem ValidateConfig_copies_legacy_strings (v : Config → Option GoError) (c : Config)
    (h : (ValidateConfig v c).2 = none) :
    (c.AgentAddressDeprecated ≠ "" →
      (ValidateConfig v c).1.AgentAddress = c.AgentAddressDeprecated) ∧
    (c.CmdArgsDeprecated ≠ "" → (ValidateConfig v c).1.CmdArgs = c.CmdArgsDeprecated) ∧
    (c.CertDirDeprecated ≠ "" → (ValidateConfig v c).1.CertDir = c.CertDirDeprecated) ∧
    (c.SvidFileNameDeprecated ≠ "" →
      (ValidateConfig v c).1.SvidFileName = c.SvidFileNameDeprecated) ∧
    (c.SvidKeyFileNameDeprecated ≠ "" →
      (ValidateConfig v c).1.SvidKeyFileName = c.SvidKeyFileNameDeprecated) ∧
    (c.SvidBundleFileNameDeprecated ≠ "" →
      (ValidateConfig v c).1.SvidBundleFileName = c.SvidBundleFileNameDeprecated) ∧
    (c.RenewSignalDeprecated ≠ "" →
      (ValidateConfig v c).1.RenewSignal = c.RenewSignalDeprecated) := by
  obtain ⟨_, _, ⟨e1, e2, e3, e4, e5, e6, e7⟩, _, _⟩ := ValidateConfig_nil_spec v c h
  rw [e1, e2, e3, e4, e5, e6, e7]
  unfold resolved
  refine ⟨?_, ?_, ?_, ?_, ?_, ?_, ?_⟩ <;> intro hl <;> rw [if_pos hl]

/-- The part of the duplicate check that the code does carry out: a
configuration in which one of the seven string concepts has both its legacy
and its canonical field set is never accepted. -/
theorem ValidateConfig_refuses_duplicate_strings (v : Config → Option GoError) (c : Config)
    (h : (c.AgentAddressDeprecated ≠ "" ∧ c.AgentAddress ≠ "") ∨
      (c.CmdArgsDeprecated ≠ "" ∧ c.CmdArgs ≠ "") ∨
      (c.CertDirDeprecated ≠ "" ∧ c.CertDir ≠ "") ∨
      (c.SvidFileNameDeprecated ≠ "" ∧ c.SvidFileName ≠ "") ∨
      (c.SvidKeyFileNameDeprecated ≠ "" ∧ c.SvidKeyFileName ≠ "") ∨
      (c.SvidBundleFileNameDeprecated ≠ "" ∧ c.SvidBundleFileName ≠ "") ∨
      (c.RenewSignalDeprecated ≠ "" ∧ c.RenewSignal ≠ "")) :
    (ValidateConfig v c).2 ≠ none := by
  intro hn
  obtain ⟨_, ⟨h1, h2, h3, h4, h5, h6, h7⟩, _⟩ := ValidateConfig_nil_spec v c hn
  rcases h with h | h | h | h | h | h | h
  · exact h1 h
  · exact h2 h
  · exact h3 h
  · exact h4 h
  · exact h5 h
  · exact h6 h
  · exact h7 h

/-- C9, at the failing input: a configuration that sets the agent address and
the `addIntermediatesToBundle` flag under their legacy names only passes
`ValidateConfig` (nil is returned); afterwards the canonical agent address
holds the legacy value, yet the canonical `AddIntermediatesToBundle` is still
false. -/
theorem ValidateConfig_drops_legacy_addIntermediates :
    Config.legacyFlagOnly.AddIntermediatesToBundleDeprecated = true ∧
    Config.legacyFlagOnly.AddIntermediatesToBundle = false ∧
    (ValidateConfig (fun _ => none) Config.legacyFlagOnly).2 = none ∧
    (ValidateConfig (fun _ => none) Config.legacyFlagOnly).1.AgentAddress
      = "/run/agent.sock" ∧
    (ValidateConfig (fun _ => none) Config.legacyFlagOnly).1.AddIntermediatesToBundle
      = false := by
  decide

/-- C10, at the failing input: a configuration that sets the add-intermediates
flag under both its legacy and its canonical name passes `ValidateConfig`: the
call returns nil instead of a "duplicated" error, whereas the same configuration
with the renew signal set under both names is refused. -/
theorem ValidateConfig_accepts_flag_set_twice :
    Config.flagTwice.AddIntermediatesToBundleDeprecated = true ∧
    Config.flagTwice.AddIntermediatesToBundle = true ∧
    (ValidateConfig (fun _ => none) Config.flagTwice).2 = none ∧
    (ValidateConfig (fun _ => none)
        { Config.flagTwice with RenewSignalDeprecated := "SIGUSR1" }).2
      = some (GoError.new "duplicated RenewSignal") := by
  decide

/-! ## Which configurations are refused -/

theorem resolved_eq_canonicalOrLegacy (legacy canonical : String)
    (h : ¬ (legacy ≠ "" ∧ canonical ≠ "")) :
    resolved legacy canonical = canonicalOrLegacy canonical legacy := by
  unfold resolved canonicalOrLegacy
  by_cases hl : legacy = "" <;> by_cases hc : canonical = "" <;> simp_all

/-- C11: for every configuration that passes the operating system check and in
which no string concept has both forms set, `ValidateConfig` returns an error
if and only if, taking for each field the canonical value or else the legacy
one, the agent address, the SVID file name, the key file name or the bundle
file name is empty.  Nothing else enters the condition: `Cmd`, the command
arguments, the certificate directory and the renew signal may be empty. -/
theorem ValidateConfig_error_iff_required_missing (v : Config → Option GoError)
    (c : Config) (hv : v c = none)
    (h1 : ¬ (c.AgentAddressDeprecated ≠ "" ∧ c.AgentAddress ≠ ""))
    (h2 : ¬ (c.CmdArgsDeprecated ≠ "" ∧ c.CmdArgs ≠ ""))
    (h3 : ¬ (c.CertDirDeprecated ≠ "" ∧ c.CertDir ≠ ""))
    (h4 : ¬ (c.SvidFileNameDeprecated ≠ "" ∧ c.SvidFileName ≠ ""))
    (h5 : ¬ (c.SvidKeyFileNameDeprecated ≠ "" ∧ c.SvidKeyFileName ≠ ""))
    (h6 : ¬ (c.SvidBundleFileNameDeprecated ≠ "" ∧ c.SvidBundleFileName ≠ ""))
    (h7 : ¬ (c.RenewSignalDeprecated ≠ "" ∧ c.RenewSignal ≠ "")) :
    (ValidateConfig v c).2 ≠ none ↔
      (canonicalOrLegacy c.AgentAddress c.AgentAddressDeprecated = "" ∨
        canonicalOrLegacy c.SvidFileName c.SvidFileNameDeprecated = "" ∨
        canonicalOrLegacy c.SvidKeyFileName c.SvidKeyFileNameDeprecated = "" ∨
        canonicalOrLegacy c.SvidBundleFileName c.SvidBundleFileNameDeprecated = "") := by
  rw [← resolved_eq_canonicalOrLegacy _ _ h1, ← resolved_eq_canonicalOrLegacy _ _ h4,
    ← resolved_eq_canonicalOrLegacy _ _ h5, ← resolved_eq_canonicalOrLegacy _ _ h6]
  constructor
  · intro herr
    by_contra hall
    simp only [not_or] at hall
    exact herr (ValidateConfig_nil_of v c hv h1 h2 h3 h4 h5 h6 h7 hall.1 hall.2.1
      hall.2.2.1 hall.2.2.2)
  · intro hmiss hnil
    obtain ⟨_, _, ⟨e1, _, _, e4, e5, e6, _⟩, ⟨n1, n4, n5, n6⟩, _⟩ :=
      ValidateConfig_nil_spec v c hnil
    rw [e1] at n1
    rw [e4] at n4
    rw [e5] at n5
    rw [e6] at n6
    rcases hmiss with h | h | h | h
    · exact n1 h
    · exact n4 h
    · exact n5 h
    · exact n6 h

/-- Witness for C11: a configuration with nothing but the four required fields
is accepted, and without the key file name it is refused. -/
theorem ValidateConfig_error_iff_required_missing_witness :
    (ValidateConfig (fun _ => none) Config.requiredOnly).2 = none ∧
    (ValidateConfig (fun _ => none) { Config.requiredOnly with SvidKeyFileName := "" }).2
      ≠ none :=
  ⟨by
    by_contra h
    have := (ValidateConfig_error_iff_required_missing (fun _ => none)
      Config.requiredOnly rfl (by decide) (by decide) (by decide) (by decide)
      (by decide) (by decide) (by decide)).mp h
    revert this
    decide,
   (ValidateConfig_error_iff_required_missing (fun _ => none)
      { Config.requiredOnly with SvidKeyFileName := "" } rfl (by decide) (by decide)
      (by decide) (by decide) (by decide) (by decide) (by decide)).mpr (by decide)⟩

/-! ## A second call of ValidateConfig -/

namespace ValidateConfig

theorem andThen_snd (r : Config × Option GoError) (k : Config → Config × Option GoError) :
    (andThen r k).2 = if r.2 = none then (k r.1).2 else r.2 := by
  unfold andThen
  cases h : r.2 with
  | none => simp
  | some e => simp [h]

theorem andThen_fst (r : Config × Option GoError) (k : Config → Config × Option GoError) :
    (andThen r k).1 = if r.2 = none then (k r.1).1 else r.1 := by
  unfold andThen
  cases h : r.2 with
  | none => simp
  | some e => simp [h]

theorem agentAddress_snd (c : Config) :
    (agentAddress c).2 =
      if c.AgentAddressDeprecated ≠ "" ∧ c.AgentAddress ≠ "" then some (GoError.new "duplicated agentAddress")
      else none := by
  unfold agentAddress
  split_ifs <;> simp_all

theorem cmdArgs_snd (c : Config) :
    (cmdArgs c).2 =
      if c.CmdArgsDeprecated ≠ "" ∧ c.CmdArgs ≠ "" then some (GoError.new "duplicated CmdArgs")
      else none := by
  unfold cmdArgs
  split_ifs <;> simp_all

theorem certDir_snd (c : Config) :
    (certDir c).2 =
      if c.CertDirDeprecated ≠ "" ∧ c.CertDir ≠ "" then some (GoError.new "duplicated CertDir")
      else none := by
  unfold certDir
  split_ifs <;> simp_all

theorem svidFileName_snd (c : Config) :
    (svidFileName c).2 =
      if c.SvidFileNameDeprecated ≠ "" ∧ c.SvidFileName ≠ "" then some (GoError.new "duplicated SvidFileName")
      else none := by
  unfold svidFileName
  split_ifs <;> simp_all

theorem svidKeyFileName_snd (c : Config) :
    (svidKeyFileName c).2 =
      if c.SvidKeyFileNameDeprecated ≠ "" ∧ c.SvidKeyFileName ≠ "" then some (GoError.new "duplicated SvidKeyFileName")
      else none := by
  unfold svidKeyFileName
  split_ifs <;> simp_all

theorem svidBundleFileName_snd (c : Config) :
    (svidBundleFileName c).2 =
      if c.SvidBundleFileNameDeprecated ≠ "" ∧ c.SvidBundleFileName ≠ "" then some (GoError.new "duplicated SvidBundleFileName")
      else none := by
  unfold svidBundleFileName
  split_ifs <;> simp_all

theorem renewSignal_snd (c : Config) :
    (renewSignal c).2 =
      if c.RenewSignalDeprecated ≠ "" ∧ c.RenewSignal ≠ "" then some (GoError.new "duplicated RenewSignal")
      else none := by
  unfold renewSignal
  split_ifs <;> simp_all

end ValidateConfig

theorem ValidateConfig.andThen_some (r : Config × Option GoError)
    (k : Config → Config × Option GoError) (e : GoError) (h : r.2 = some e) :
    (ValidateConfig.andThen r k).2 = some e := by
  unfold ValidateConfig.andThen
  rw [h]
  exact h

/-- When the operating system check passes and a string concept has both forms
set, `ValidateConfig` returns the "duplicated" error of the first such concept. -/
theorem ValidateConfig_duplicate_error (v : Config → Option GoError) (c : Config)
    (hv : v c = none)
    (h : (c.AgentAddressDeprecated ≠ "" ∧ c.AgentAddress ≠ "") ∨
      (c.CmdArgsDeprecated ≠ "" ∧ c.CmdArgs ≠ "") ∨
      (c.CertDirDeprecated ≠ "" ∧ c.CertDir ≠ "") ∨
      (c.SvidFileNameDeprecated ≠ "" ∧ c.SvidFileName ≠ "") ∨
      (c.SvidKeyFileNameDeprecated ≠ "" ∧ c.SvidKeyFileName ≠ "") ∨
      (c.SvidBundleFileNameDeprecated ≠ "" ∧ c.SvidBundleFileName ≠ "") ∨
      (c.RenewSignalDeprecated ≠ "" ∧ c.RenewSignal ≠ "")) :
    ∃ msg ∈ duplicatedMessages, (ValidateConfig v c).2 = some (GoError.new msg) := by
  unfold ValidateConfig
  simp only [hv]
  have e1 : (ValidateConfig.agentAddress (if c.Log.isNone then { c with Log := some [] } else c)).2
      = if c.AgentAddressDeprecated ≠ "" ∧ c.AgentAddress ≠ "" then some (GoError.new "duplicated agentAddress")
        else none := by
    rw [ValidateConfig.agentAddress_snd]
    simp only [
      apply_ite Config.AgentAddress, apply_ite Config.CmdArgs,
      apply_ite Config.CertDir, apply_ite Config.SvidFileName,
      apply_ite Config.SvidKeyFileName, apply_ite Config.SvidBundleFileName,
      apply_ite Config.RenewSignal, apply_ite Config.AgentAddressDeprecated,
      apply_ite Config.CmdArgsDeprecated, apply_ite Config.CertDirDeprecated,
      apply_ite Config.SvidFileNameDeprecated,
      apply_ite Config.SvidKeyFileNameDeprecated,
      apply_ite Config.SvidBundleFileNameDeprecated,
      apply_ite Config.RenewSignalDeprecated, Warnf, ite_self]
  by_cases d1 : c.AgentAddressDeprecated ≠ "" ∧ c.AgentAddress ≠ ""
  · rw [if_pos d1] at e1
    exact ⟨"duplicated agentAddress", by simp [duplicatedMessages],
      ValidateConfig.andThen_some _ _ _ e1⟩
  rw [if_neg d1] at e1
  rw [ValidateConfig.andThen_of_none _ _ e1]
  have e2 : (ValidateConfig.cmdArgs (ValidateConfig.agentAddress (if c.Log.isNone then { c with Log := some [] } else c)).1).2
      = if c.CmdArgsDeprecated ≠ "" ∧ c.CmdArgs ≠ "" then some (GoError.new "duplicated CmdArgs")
        else none := by
    rw [ValidateConfig.cmdArgs_snd]
    simp only [
      ValidateConfig.agentAddress_fst, apply_ite Config.AgentAddress,
      apply_ite Config.CmdArgs, apply_ite Config.CertDir,
      apply_ite Config.SvidFileName, apply_ite Config.SvidKeyFileName,
      apply_ite Config.SvidBundleFileName, apply_ite Config.RenewSignal,
      apply_ite Config.AgentAddressDeprecated, apply_ite Config.CmdArgsDeprecated,
      apply_ite Config.CertDirDeprecated, apply_ite Config.SvidFileNameDeprecated,
      apply_ite Config.SvidKeyFileNameDeprecated,
      apply_ite Config.SvidBundleFileNameDeprecated,
      apply_ite Config.RenewSignalDeprecated, Warnf, ite_self]
  by_cases d2 : c.CmdArgsDeprecated ≠ "" ∧ c.CmdArgs ≠ ""
  · rw [if_pos d2] at e2
    exact ⟨"duplicated CmdArgs", by simp [duplicatedMessages],
      ValidateConfig.andThen_some _ _ _ e2⟩
  rw [if_neg d2] at e2
  rw [ValidateConfig.andThen_of_none _ _ e2]
  have e3 : (ValidateConfig.certDir (ValidateConfig.cmdArgs (ValidateConfig.agentAddress (if c.Log.isNone then { c with Log := some [] } else c)).1).1).2
      = if c.CertDirDeprecated ≠ "" ∧ c.CertDir ≠ "" then some (GoError.new "duplicated CertDir")
        else none := by
    rw [ValidateConfig.certDir_snd]
    simp only [
      ValidateConfig.agentAddress_fst, ValidateConfig.cmdArgs_fst,
      apply_ite Config.AgentAddress, apply_ite Config.CmdArgs,
      apply_ite Config.CertDir, apply_ite Config.SvidFileName,
      apply_ite Config.SvidKeyFileName, apply_ite Config.SvidBundleFileName,
      apply_ite Config.RenewSignal, apply_ite Config.AgentAddressDeprecated,
      apply_ite Config.CmdArgsDeprecated, apply_ite Config.CertDirDeprecated,
      apply_ite Config.SvidFileNameDeprecated,
      apply_ite Config.SvidKeyFileNameDeprecated,
      apply_ite Config.SvidBundleFileNameDeprecated,
      apply_ite Config.RenewSignalDeprecated, Warnf, ite_self]
  by_cases d3 : c.CertDirDeprecated ≠ "" ∧ c.CertDir ≠ ""
  · rw [if_pos d3] at e3
    exact ⟨"duplicated CertDir", by simp [duplicatedMessages],
      ValidateConfig.andThen_some _ _ _ e3⟩
  rw [if_neg d3] at e3
  rw [ValidateConfig.andThen_of_none _ _ e3]
  have e4 : (ValidateConfig.svidFileName (ValidateConfig.certDir (ValidateConfig.cmdArgs (ValidateConfig.agentAddress (if c.Log.isNone then { c with Log := some [] } else c)).1).1).1).2
      = if c.SvidFileNameDeprecated ≠ "" ∧ c.SvidFileName ≠ "" then some (GoError.new "duplicated SvidFileName")
        else none := by
    rw [ValidateConfig.svidFileName_snd]
    simp only [
      ValidateConfig.agentAddress_fst, ValidateConfig.cmdArgs_fst,
      ValidateConfig.certDir_fst, apply_ite Config.AgentAddress,
      apply_ite Config.CmdArgs, apply_ite Config.CertDir,
      apply_ite Config.SvidFileName, apply_ite Config.SvidKeyFileName,
      apply_ite Config.SvidBundleFileName, apply_ite Config.RenewSignal,
      apply_ite Config.AgentAddressDeprecated, apply_ite Config.CmdArgsDeprecated,
      apply_ite Config.CertDirDeprecated, apply_ite Config.SvidFileNameDeprecated,
      apply_ite Config.SvidKeyFileNameDeprecated,
      apply_ite Config.SvidBundleFileNameDeprecated,
      apply_ite Config.RenewSignalDeprecated, Warnf, ite_self]
  by_cases d4 : c.SvidFileNameDeprecated ≠ "" ∧ c.SvidFileName ≠ ""
  · rw [if_pos d4] at e4
    exact ⟨"duplicated SvidFileName", by simp [duplicatedMessages],
      ValidateConfig.andThen_some _ _ _ e4⟩
  rw [if_neg d4] at e4
  rw [ValidateConfig.andThen_of_none _ _ e4]
  have e5 : (ValidateConfig.svidKeyFileName (ValidateConfig.svidFileName (ValidateConfig.certDir (ValidateConfig.cmdArgs (ValidateConfig.agentAddress (if c.Log.isNone then { c with Log := some [] } else c)).1).1).1).1).2
      = if c.SvidKeyFileNameDeprecated ≠ "" ∧ c.SvidKeyFileName ≠ "" then some (GoError.new "duplicated SvidKeyFileName")
        else none := by
    rw [ValidateConfig.svidKeyFileName_snd]
    simp only [
      ValidateConfig.agentAddress_fst, ValidateConfig.cmdArgs_fst,
      ValidateConfig.certDir_fst, ValidateConfig.svidFileName_fst,
      apply_ite Config.AgentAddress, apply_ite Config.CmdArgs,
      apply_ite Config.CertDir, apply_ite Config.SvidFileName,
      apply_ite Config.SvidKeyFileName, apply_ite Config.SvidBundleFileName,
      apply_ite Config.RenewSignal, apply_ite Config.AgentAddressDeprecated,
      apply_ite Config.CmdArgsDeprecated, apply_ite Config.CertDirDeprecated,
      apply_ite Config.SvidFileNameDeprecated,
      apply_ite Config.SvidKeyFileNameDeprecated,
      apply_ite Config.SvidBundleFileNameDeprecated,
      apply_ite Config.RenewSignalDeprecated, Warnf, ite_self]
  by_cases d5 : c.SvidKeyFileNameDeprecated ≠ "" ∧ c.SvidKeyFileName ≠ ""
  · rw [if_pos d5] at e5
    exact ⟨"duplicated SvidKeyFileName", by simp [duplicatedMessages],
      ValidateConfig.andThen_some _ _ _ e5⟩
  rw [if_neg d5] at e5
  rw [ValidateConfig.andThen_of_none _ _ e5]
  have e6 : (ValidateConfig.svidBundleFileName (ValidateConfig.svidKeyFileName (ValidateConfig.svidFileName (ValidateConfig.certDir (ValidateConfig.cmdArgs (ValidateConfig.agentAddress (if c.Log.isNone then { c with Log := some [] } else c)).1).1).1).1).1).2
      = if c.SvidBundleFileNameDeprecated ≠ "" ∧ c.SvidBundleFileName ≠ "" then some (GoError.new "duplicated SvidBundleFileName")
        else none := by
    rw [ValidateConfig.svidBundleFileName_snd]
    simp only [
      ValidateConfig.agentAddress_fst, ValidateConfig.cmdArgs_fst,
      ValidateConfig.certDir_fst, ValidateConfig.svidFileName_fst,
      ValidateConfig.svidKeyFileName_fst, apply_ite Config.AgentAddress,
      apply_ite Config.CmdArgs, apply_ite Config.CertDir,
      apply_ite Config.SvidFileName, apply_ite Config.SvidKeyFileName,
      apply_ite Config.SvidBundleFileName, apply_ite Config.RenewSignal,
      apply_ite Config.AgentAddressDeprecated, apply_ite Config.CmdArgsDeprecated,
      apply_ite Config.CertDirDeprecated, apply_ite Config.SvidFileNameDeprecated,
      apply_ite Config.SvidKeyFileNameDeprecated,
      apply_ite Config.SvidBundleFileNameDeprecated,
      apply_ite Config.RenewSignalDeprecated, Warnf, ite_self]
  by_cases d6 : c.SvidBundleFileNameDeprecated ≠ "" ∧ c.SvidBundleFileName ≠ ""
  · rw [if_pos d6] at e6
    exact ⟨"duplicated SvidBundleFileName", by simp [duplicatedMessages],
      ValidateConfig.andThen_some _ _ _ e6⟩
  rw [if_neg d6] at e6
  rw [ValidateConfig.andThen_of_none _ _ e6]
  have e7 : (ValidateConfig.renewSignal (ValidateConfig.svidBundleFileName (ValidateConfig.svidKeyFileName (ValidateConfig.svidFileName (ValidateConfig.certDir (ValidateConfig.cmdArgs (ValidateConfig.agentAddress (if c.Log.isNone then { c with Log := some [] } else c)).1).1).1).1).1).1).2
      = if c.RenewSignalDeprecated ≠ "" ∧ c.RenewSignal ≠ "" then some (GoError.new "duplicated RenewSignal")
        else none := by
    rw [ValidateConfig.renewSignal_snd]
    simp only [
      ValidateConfig.agentAddress_fst, ValidateConfig.cmdArgs_fst,
      ValidateConfig.certDir_fst, ValidateConfig.svidFileName_fst,
      ValidateConfig.svidKeyFileName_fst, ValidateConfig.svidBundleFileName_fst,
      apply_ite Config.AgentAddress, apply_ite Config.CmdArgs,
      apply_ite Config.CertDir, apply_ite Config.SvidFileName,
      apply_ite Config.SvidKeyFileName, apply_ite Config.SvidBundleFileName,
      apply_ite Config.RenewSignal, apply_ite Config.AgentAddressDeprecated,
      apply_ite Config.CmdArgsDeprecated, apply_ite Config.CertDirDeprecated,
      apply_ite Config.SvidFileNameDeprecated,
      apply_ite Config.SvidKeyFileNameDeprecated,
      apply_ite Config.SvidBundleFileNameDeprecated,
      apply_ite Config.RenewSignalDeprecated, Warnf, ite_self]
  by_cases d7 : c.RenewSignalDeprecated ≠ "" ∧ c.RenewSignal ≠ ""
  · rw [if_pos d7] at e7
    exact ⟨"duplicated RenewSignal", by simp [duplicatedMessages],
      ValidateConfig.andThen_some _ _ _ e7⟩
  rw [if_neg d7] at e7
  rw [ValidateConfig.andThen_of_none _ _ e7]
  exfalso
  rcases h with h | h | h | h | h | h | h
  · exact d1 h
  · exact d2 h
  · exact d3 h
  · exact d4 h
  · exact d5 h
  · exact d6 h
  · exact d7 h

/-- Without any legacy string field `ValidateConfig` leaves the configuration
as it is, apart from giving it a logger when it has none and the operating
system check passes. -/
theorem ValidateConfig_fst_of_no_legacy (v : Config → Option GoError) (c : Config)
    (l1 : c.AgentAddressDeprecated = "")
    (l2 : c.CmdArgsDeprecated = "")
    (l3 : c.CertDirDeprecated = "")
    (l4 : c.SvidFileNameDeprecated = "")
    (l5 : c.SvidKeyFileNameDeprecated = "")
    (l6 : c.SvidBundleFileNameDeprecated = "")
    (l7 : c.RenewSignalDeprecated = "") :
    (ValidateConfig v c).1
      = if v c = none ∧ c.Log.isNone then { c with Log := some [] } else c := by
  unfold ValidateConfig
  cases hv : v c with
  | some e => simp
  | none =>
    simp only [ValidateConfig.andThen_fst, ValidateConfig.required_fst]
    simp only [
    ValidateConfig.agentAddress_fst, ValidateConfig.cmdArgs_fst,
    ValidateConfig.certDir_fst, ValidateConfig.svidFileName_fst,
    ValidateConfig.svidKeyFileName_fst, ValidateConfig.svidBundleFileName_fst,
    ValidateConfig.renewSignal_fst, apply_ite Config.AgentAddress,
    apply_ite Config.CmdArgs, apply_ite Config.CertDir, apply_ite Config.SvidFileName,
    apply_ite Config.SvidKeyFileName, apply_ite Config.SvidBundleFileName,
    apply_ite Config.RenewSignal, apply_ite Config.AgentAddressDeprecated,
    apply_ite Config.CmdArgsDeprecated, apply_ite Config.CertDirDeprecated,
    apply_ite Config.SvidFileNameDeprecated,
    apply_ite Config.SvidKeyFileNameDeprecated,
    apply_ite Config.SvidBundleFileNameDeprecated,
    apply_ite Config.RenewSignalDeprecated, Warnf, ite_self]
    simp only [l1, l2, l3, l4, l5, l6, l7, ne_eq, not_true_eq_false, false_and, if_false,
      ite_self, true_and]

/-- C16: `ValidateConfig` is not idempotent on migrated configurations.  When
a first call returns nil and the operating system check passes again on the
configuration it leaves: if at least one legacy string field was set, a second
call returns a "duplicated" error (the legacy value has been copied into the
canonical field and is still in the legacy one); if no legacy string field was
set, a second call returns nil and leaves the configuration as it is. -/
theorem ValidateConfig_second_call (v : Config → Option GoError) (c : Config)
    (h1 : (ValidateConfig v c).2 = none)
    (hv2 : v (ValidateConfig v c).1 = none) :
    ((c.AgentAddressDeprecated ≠ "" ∨
        c.CmdArgsDeprecated ≠ "" ∨
        c.CertDirDeprecated ≠ "" ∨
        c.SvidFileNameDeprecated ≠ "" ∨
        c.SvidKeyFileNameDeprecated ≠ "" ∨
        c.SvidBundleFileNameDeprecated ≠ "" ∨
        c.RenewSignalDeprecated ≠ "") →
      ∃ msg ∈ duplicatedMessages,
        (ValidateConfig v (ValidateConfig v c).1).2 = some (GoError.new msg)) ∧
    ((c.AgentAddressDeprecated = "" ∧
        c.CmdArgsDeprecated = "" ∧
        c.CertDirDeprecated = "" ∧
        c.SvidFileNameDeprecated = "" ∧
        c.SvidKeyFileNameDeprecated = "" ∧
        c.SvidBundleFileNameDeprecated = "" ∧
        c.RenewSignalDeprecated = "") →
      (ValidateConfig v (ValidateConfig v c).1).2 = none ∧
      (ValidateConfig v (ValidateConfig v c).1).1 = (ValidateConfig v c).1) := by
  obtain ⟨hv, _, ⟨e1, e2, e3, e4, e5, e6, e7⟩, ⟨n1, n4, n5, n6⟩,
    ⟨g1, g2, g3, g4, g5, g6, g7, _⟩⟩ := ValidateConfig_nil_spec v c h1
  constructor
  · intro hl
    rcases hl with h | h | h | h | h | h | h
    · exact ValidateConfig_duplicate_error v _ hv2 (Or.inl ⟨by rw [g1]; exact h, by rw [e1]; unfold resolved; rw [if_pos h]; exact h⟩)
    · exact ValidateConfig_duplicate_error v _ hv2 (Or.inr (Or.inl ⟨by rw [g2]; exact h, by rw [e2]; unfold resolved; rw [if_pos h]; exact h⟩))
    · exact ValidateConfig_duplicate_error v _ hv2 (Or.inr (Or.inr (Or.inl ⟨by rw [g3]; exact h, by rw [e3]; unfold resolved; rw [if_pos h]; exact h⟩)))
    · exact ValidateConfig_duplicate_error v _ hv2 (Or.inr (Or.inr (Or.inr (Or.inl ⟨by rw [g4]; exact h, by rw [e4]; unfold resolved; rw [if_pos h]; exact h⟩))))
    · exact ValidateConfig_duplicate_error v _ hv2 (Or.inr (Or.inr (Or.inr (Or.inr (Or.inl ⟨by rw [g5]; exact h, by rw [e5]; unfold resolved; rw [if_pos h]; exact h⟩)))))
    · exact ValidateConfig_duplicate_error v _ hv2 (Or.inr (Or.inr (Or.inr (Or.inr (Or.inr (Or.inl ⟨by rw [g6]; exact h, by rw [e6]; unfold resolved; rw [if_pos h]; exact h⟩))))))
    · exact ValidateConfig_duplicate_error v _ hv2 (Or.inr (Or.inr (Or.inr (Or.inr (Or.inr (Or.inr (⟨by rw [g7]; exact h, by rw [e7]; unfold resolved; rw [if_pos h]; exact h⟩)))))))
  · rintro ⟨l1, l2, l3, l4, l5, l6, l7⟩
    have r : ∀ a : String, resolved "" a = a := by
      intro a
      simp [resolved]
    constructor
    · apply ValidateConfig_nil_of v _ hv2
      · rw [g1, l1]; simp
      · rw [g2, l2]; simp
      · rw [g3, l3]; simp
      · rw [g4, l4]; simp
      · rw [g5, l5]; simp
      · rw [g6, l6]; simp
      · rw [g7, l7]; simp
      · rw [g1, l1, r]; exact n1
      · rw [g4, l4, r]; exact n4
      · rw [g5, l5, r]; exact n5
      · rw [g6, l6, r]; exact n6
    · rw [ValidateConfig_fst_of_no_legacy v (ValidateConfig v c).1 (by rw [g1, l1])
        (by rw [g2, l2]) (by rw [g3, l3]) (by rw [g4, l4]) (by rw [g5, l5])
        (by rw [g6, l6]) (by rw [g7, l7])]
      rw [if_neg]
      rintro ⟨_, hlog⟩
      rw [ValidateConfig_fst_of_no_legacy v c l1 l2 l3 l4 l5 l6 l7] at hlog
      by_cases hc : c.Log.isNone
      · simp [hv, hc] at hlog
      · simp [hv, hc] at hlog

/-- Whatever the operating system check says the second time, a second call
after a migration never returns nil. -/
theorem ValidateConfig_second_call_fails (v : Config → Option GoError) (c : Config)
    (h1 : (ValidateConfig v c).2 = none) (h : c.AgentAddressDeprecated ≠ "") :
    (ValidateConfig v (ValidateConfig v c).1).2 ≠ none := by
  obtain ⟨_, _, ⟨e1, _⟩, _, ⟨g1, _⟩⟩ := ValidateConfig_nil_spec v c h1
  apply ValidateConfig_refuses_duplicate_strings
  exact Or.inl ⟨by rw [g1]; exact h, by rw [e1]; unfold resolved; rw [if_pos h]; exact h⟩

/-- Witness for C16: the configuration with the legacy agent address is accepted
once and refused with a "duplicated" error the second time. -/
theorem ValidateConfig_second_call_witness :
    ∃ msg ∈ duplicatedMessages,
      (ValidateConfig (fun _ => none)
        (ValidateConfig (fun _ => none) Config.legacyFlagOnly).1).2
        = some (GoError.new msg) :=
  (ValidateConfig_second_call (fun _ => none) Config.legacyFlagOnly (by decide) rfl).1
    (Or.inl (by decide))

/-! ## The agent address in New -/

/-- C17: for every configuration on which `ValidateConfig` returns nil, the
agent address is not empty afterwards.  So in `New`, for every configuration
file that parses: when validation accepts the configuration, `New` returns the
sidecar over the validated configuration as it is, whatever the environment
holds (neither `SPIRE_AGENT_ADDRESS` nor the default address is used); and a
configuration without agent address under either name makes `New` fail with
"invalid configuration". -/
theorem New_never_defaults_agent_address (v : Config → Option GoError)
    (readFile : String → Except GoError String)
    (hclDecode : String → Except GoError Config) (getenv : String → String)
    (configPath : String) (log : Option (List String)) (parsed : Config)
    (hparse : ParseConfig readFile hclDecode configPath = Except.ok parsed) :
    (∀ c : Config, (ValidateConfig v c).2 = none →
      (ValidateConfig v c).1.AgentAddress ≠ "") ∧
    ((ValidateConfig v
        { parsed with Log := if log.isNone then some [] else log }).2 = none →
      New v readFile hclDecode getenv configPath log
        = Except.ok (Sidecar.make (ValidateConfig v
            { parsed with Log := if log.isNone then some [] else log }).1)) ∧
    (parsed.AgentAddress = "" → parsed.AgentAddressDeprecated = "" →
      ∃ err, New v readFile hclDecode getenv configPath log
        = Except.error (GoError.wrap "invalid configuration: " err)) := by
  have hA : ∀ c : Config, (ValidateConfig v c).2 = none →
      (ValidateConfig v c).1.AgentAddress ≠ "" := by
    intro c h
    exact (ValidateConfig_nil_spec v c h).2.2.2.1.1
  refine ⟨hA, ?_, ?_⟩
  · intro hnil
    have hne := hA _ hnil
    unfold New
    simp only [hparse]
    split
    · rename_i c' err heq
      rw [Prod.ext_iff] at heq
      rw [hnil] at heq
      simp at heq
    · rename_i c' heq
      have hc : c' = (ValidateConfig v
          { parsed with Log := if log.isNone then some [] else log }).1 := by
        rw [heq]
      subst hc
      simp only [New.agentAddressFallback, if_neg hne]
  · intro h1 h2
    have herr : (ValidateConfig v
        { parsed with Log := if log.isNone then some [] else log }).2 ≠ none := by
      intro hnil
      obtain ⟨_, _, ⟨e1, _⟩, ⟨n1, _⟩, _⟩ := ValidateConfig_nil_spec v _ hnil
      rw [e1] at n1
      apply n1
      simp only [resolved, h1, h2]
      simp
    unfold New
    simp only [hparse]
    split
    · rename_i c' err heq
      exact ⟨err, rfl⟩
    · rename_i c' heq
      rw [Prod.ext_iff] at heq
      exact absurd heq.2 herr

/-- Witness for C17: the sample configuration, read from a file, with an agent
address in the environment that is not used. -/
theorem New_never_defaults_agent_address_witness :
    New (fun _ => none) (fun _ => Except.ok "hcl") (fun _ => Except.ok Config.sample)
        (fun _ => "/env/agent.sock") "helper.conf" none
      = Except.ok (Sidecar.make
          (ValidateConfig (fun _ => none) { Config.sample with Log := some [] }).1) ∧
    (ValidateConfig (fun _ => none) { Config.sample with Log := some [] }).1.AgentAddress
      = "/run/agent.sock" :=
  ⟨(New_never_defaults_agent_address (fun _ => none) (fun _ => Except.ok "hcl")
      (fun _ => Except.ok Config.sample) (fun _ => "/env/agent.sock") "helper.conf" none
      Config.sample rfl).2.1 (by decide),
   by decide⟩

/-! ## Updates and the reload -/

theorem WriteFile_of_none (env : Env) (w : World) (name : String) (data : Bytes)
    (perm : Nat) (h : env.writeFault w.writes = none) :
    WriteFile env w name data perm =
      ({ w with
          writes := w.writes + 1,
          files := fun p =>
            if p = name then some { data := data, perm := permAfter env (w.files name) perm }
            else w.files p },
       none) := by
  unfold WriteFile permAfter
  simp only [h]
  cases w.files name <;> rfl

theorem WriteFile_of_some (env : Env) (w : World) (name : String) (data : Bytes)
    (perm : Nat) (fault : WriteFault) (h : env.writeFault w.writes = some fault) :
    WriteFile env w name data perm =
      ({ w with
          writes := w.writes + 1,
          files := fun p => if p = name then fault.left else w.files p },
       some fault.err) := by
  unfold WriteFile
  simp only [h]

theorem writeCerts_eq (env : Env) (w : World) (file : String) (certs : List Certificate) :
    writeCerts env w file certs = WriteFile env w file (pemCerts env certs) certsFileMode := by
  unfold writeCerts pemCerts
  rw [foldl_append_encode, List.nil_append]

theorem writeKey_eq (env : Env) (w : World) (file : String) (der : Bytes) :
    writeKey env w file der = WriteFile env w file (pemKey env der) keyFileMode := rfl

/-- Everything a successful `dumpBundles` leaves behind, when the three paths
differ from one another: the return value, the sidecar, the three files with
their content and permission bits, the other files, and the counters. -/
theorem dumpBundles_ok_world (env : Env) (st : State) (ctx : X509Context) (svid : SVID)
    (bundle : Bundle) (der : Bytes) (bundles certs : List Certificate)
    (hsvid : ctx.DefaultSVID = some svid)
    (hbundle : ctx.Bundles svid.ID.TrustDomain = some bundle)
    (hkey : env.marshalPKCS8PrivateKey svid.PrivateKey = Except.ok der)
    (hsplit : dumpBundles.split st.s.config.AddIntermediatesToBundle
      bundle.X509Authorities svid.Certificates = some (bundles, certs))
    (hw0 : env.writeFault st.w.writes = none)
    (hw1 : env.writeFault (st.w.writes + 1) = none)
    (hw2 : env.writeFault (st.w.writes + 2) = none)
    (hsk : svidFile env st.s.config ≠ svidKeyFile env st.s.config)
    (hsb : svidFile env st.s.config ≠ svidBundleFile env st.s.config)
    (hkb : svidKeyFile env st.s.config ≠ svidBundleFile env st.s.config) :
    (dumpBundles env st ctx).2 = Ret.nil ∧
    (dumpBundles env st ctx).1.s = st.s ∧
    (dumpBundles env st ctx).1.w.files (svidFile env st.s.config)
      = some { data := pemCerts env certs,
               perm := permAfter env (st.w.files (svidFile env st.s.config))
                 certsFileMode } ∧
    (dumpBundles env st ctx).1.w.files (svidKeyFile env st.s.config)
      = some { data := pemKey env der,
               perm := permAfter env (st.w.files (svidKeyFile env st.s.config))
                 keyFileMode } ∧
    (dumpBundles env st ctx).1.w.files (svidBundleFile env st.s.config)
      = some { data := pemCerts env bundles,
               perm := permAfter env (st.w.files (svidBundleFile env st.s.config))
                 certsFileMode } ∧
    (∀ p, p ≠ svidFile env st.s.config → p ≠ svidKeyFile env st.s.config →
      p ≠ svidBundleFile env st.s.config →
      (dumpBundles env st ctx).1.w.files p = st.w.files p) ∧
    (dumpBundles env st ctx).1.w.writes = st.w.writes + 3 ∧
    (dumpBundles env st ctx).1.w.startCalls = st.w.startCalls ∧
    (dumpBundles env st ctx).1.w.signalCalls = st.w.signalCalls ∧
    (dumpBundles env st ctx).1.w.hookCalls = st.w.hookCalls := by
  unfold dumpBundles
  simp only [hsvid, hbundle, hkey, hsplit, writeCerts_eq, writeKey_eq]
  rw [WriteFile_of_none _ _ _ _ _ hw0]
  simp only
  rw [WriteFile_of_none _ _ _ _ _ (by exact hw1)]
  simp only
  rw [WriteFile_of_none _ _ _ _ _ (by exact hw2)]
  simp only [svidFile, svidKeyFile, svidBundleFile] at hsk hsb hkb ⊢
  refine ⟨trivial, trivial, ?_, ?_, ?_, ?_, trivial, trivial, trivial, trivial⟩
  · simp [hsk, hsb]
  · simp [hkb, Ne.symm hsk]
  · simp [Ne.symm hsb, Ne.symm hkb]
  · intro p h1 h2 h3
    simp [h1, h2, h3]

theorem World.sameProcesses_refl (a : World) : a.sameProcesses a :=
  ⟨rfl, rfl, rfl, rfl, rfl, rfl, rfl⟩

theorem World.sameProcesses_trans {a b c : World} (h1 : a.sameProcesses b)
    (h2 : b.sameProcesses c) : a.sameProcesses c := by
  obtain ⟨a1, a2, a3, a4, a5, a6, a7⟩ := h1
  obtain ⟨b1, b2, b3, b4, b5, b6, b7⟩ := h2
  exact ⟨a1.trans b1, a2.trans b2, a3.trans b3, a4.trans b4, a5.trans b5, a6.trans b6,
    a7.trans b7⟩

theorem WriteFile_sameProcesses (env : Env) (w : World) (name : String) (data : Bytes)
    (perm : Nat) : (WriteFile env w name data perm).1.sameProcesses w := by
  cases h : env.writeFault w.writes with
  | none =>
    rw [WriteFile_of_none _ _ _ _ _ h]
    exact ⟨rfl, rfl, rfl, rfl, rfl, rfl, rfl⟩
  | some fault =>
    rw [WriteFile_of_some _ _ _ _ _ fault h]
    exact ⟨rfl, rfl, rfl, rfl, rfl, rfl, rfl⟩

/-- `dumpBundles` touches nothing but the files and the count of writes. -/
theorem dumpBundles_keeps_processes (env : Env) (st : State) (ctx : X509Context) :
    (dumpBundles env st ctx).1.w.sameProcesses st.w := by
  have step : ∀ (w w' : World) (name : String) (data : Bytes) (perm : Nat)
      (e : Option GoError), WriteFile env w name data perm = (w', e) →
      w.sameProcesses st.w → w'.sameProcesses st.w := by
    intro w w' name data perm e heq hw
    have := WriteFile_sameProcesses env w name data perm
    rw [heq] at this
    exact World.sameProcesses_trans this hw
  unfold dumpBundles
  simp only [writeCerts_eq, writeKey_eq]
  split
  · exact World.sameProcesses_refl _
  · split
    · exact World.sameProcesses_refl _
    · split
      · exact World.sameProcesses_refl _
      · split
        · exact World.sameProcesses_refl _
        · split
          · rename_i heq
            exact step _ _ _ _ _ _ heq (World.sameProcesses_refl _)
          · rename_i heq1
            have h1 := step _ _ _ _ _ _ heq1 (World.sameProcesses_refl _)
            split
            · rename_i heq
              exact step _ _ _ _ _ _ heq h1
            · rename_i heq2
              have h2 := step _ _ _ _ _ _ heq2 h1
              split
              · rename_i heq
                exact step _ _ _ _ _ _ heq h2
              · rename_i heq
                exact step _ _ _ _ _ _ heq h2

/-- `signalProcess` writes no file. -/
theorem signalProcess_keeps_files (env : Env) (st : State) :
    (signalProcess env st).1.w.files = st.w.files ∧
    (signalProcess env st).1.w.writes = st.w.writes := by
  unfold signalProcess SignalProcess
  repeat' first
    | exact ⟨rfl, rfl⟩
    | split
    | dsimp only

/-- `signalProcess` with a reload callback: the callback is invoked once and
its error, if any, is returned wrapped; nothing else changes. -/
theorem signalProcess_hook (env : Env) (st : State) (hook : Nat → Option GoError)
    (hhook : st.s.config.ReloadExternalProcess = some hook) :
    signalProcess env st =
      ({ st with w := { st.w with hookCalls := st.w.hookCalls + 1 } },
       (hook st.w.hookCalls).map (GoError.wrap "error reloading external process: ")) := by
  unfold signalProcess
  simp only [hhook]
  cases hook st.w.hookCalls <;> rfl

theorem updateCertificates_of_nil (env : Env) (st : State) (ctx : X509Context)
    (h : (dumpBundles env st ctx).2 = Ret.nil) :
    updateCertificates env st ctx =
      ({ (if (dumpBundles env st ctx).1.s.config.Cmd ≠ "" then
            (signalProcess env (dumpBundles env st ctx).1).1
          else (dumpBundles env st ctx).1) with
          s := { (if (dumpBundles env st ctx).1.s.config.Cmd ≠ "" then
                    (signalProcess env (dumpBundles env st ctx).1).1
                  else (dumpBundles env st ctx).1).s with
                 certReadyChan :=
                   (if (dumpBundles env st ctx).1.s.config.Cmd ≠ "" then
                      (signalProcess env (dumpBundles env st ctx).1).1
                    else (dumpBundles env st ctx).1).s.certReadyChan.trySend } },
       none) := by
  unfold updateCertificates
  split
  · rename_i st1 msg heq
    rw [heq] at h
    simp at h
  · rename_i st1 err heq
    rw [heq] at h
    simp at h
  · rename_i st1 heq
    rw [heq]

/-- C12 as stated fails: on a sidecar with a reload callback but an empty `Cmd`
the artifact write of the sample update succeeds, yet `updateCertificates` does
not invoke the callback at all. -/
theorem updateCertificates_hook_not_invoked_without_cmd :
    Config.hookNoCmd.ReloadExternalProcess.isSome = true ∧
    (dumpBundles Env.sample (State.initial Config.hookNoCmd fun _ => none)
      X509Context.sample).2 = Ret.nil ∧
    (updateCertificates Env.sample (State.initial Config.hookNoCmd fun _ => none)
      X509Context.sample).1.w.hookCalls = 0 := by
  decide

/-- C12, as amended: for every update whose artifact write succeeds on a
sidecar with a reload callback configured, `updateCertificates` invokes the
callback exactly once when `Cmd` is not empty and not at all when `Cmd` is
empty; in both cases it starts no child process and sends no signal; and
`signalProcess` returns an error if and only if the callback does. -/
theorem updateCertificates_with_hook (env : Env) (st : State) (ctx : X509Context)
    (hook : Nat → Option GoError)
    (hd : (dumpBundles env st ctx).2 = Ret.nil)
    (hhook : st.s.config.ReloadExternalProcess = some hook) :
    (updateCertificates env st ctx).1.w.hookCalls
      = (if st.s.config.Cmd ≠ "" then st.w.hookCalls + 1 else st.w.hookCalls) ∧
    (updateCertificates env st ctx).1.w.startCalls = st.w.startCalls ∧
    (updateCertificates env st ctx).1.w.children = st.w.children ∧
    (updateCertificates env st ctx).1.w.signalCalls = st.w.signalCalls ∧
    (updateCertificates env st ctx).1.w.delivered = st.w.delivered ∧
    (updateCertificates env st ctx).1.w.watchers = st.w.watchers ∧
    ∀ st' : State, st'.s.config.ReloadExternalProcess = some hook →
      ((signalProcess env st').2 ≠ none ↔ hook st'.w.hookCalls ≠ none) := by
  have hs := dumpBundles_keeps_sidecar env st ctx
  obtain ⟨p1, p2, _, p4, p5, p6, p7⟩ := dumpBundles_keeps_processes env st ctx
  have hhook' : (dumpBundles env st ctx).1.s.config.ReloadExternalProcess = some hook := by
    rw [hs]; exact hhook
  rw [updateCertificates_of_nil env st ctx hd, hs]
  refine ⟨?_, ?_, ?_, ?_, ?_, ?_, ?_⟩
  · split_ifs
    · rw [signalProcess_hook env _ hook hhook']
      exact congrArg (· + 1) p6
    · exact p6
  · split_ifs
    · rw [signalProcess_hook env _ hook hhook']
      exact p1
    · exact p1
  · split_ifs
    · rw [signalProcess_hook env _ hook hhook']
      exact p2
    · exact p2
  · split_ifs
    · rw [signalProcess_hook env _ hook hhook']
      exact p4
    · exact p4
  · split_ifs
    · rw [signalProcess_hook env _ hook hhook']
      exact p5
    · exact p5
  · split_ifs
    · rw [signalProcess_hook env _ hook hhook']
      exact p7
    · exact p7
  · intro st' h'
    rw [signalProcess_hook env st' hook h']
    cases hook st'.w.hookCalls <;> simp

/-- Witness for C12 as amended: the sample update on a fresh sidecar with a
command and a failing reload callback invokes the callback once. -/
theorem updateCertificates_with_hook_witness :
    (updateCertificates Env.sample (State.initial Config.hookFails fun _ => none)
      X509Context.sample).1.w.hookCalls = 1 ∧
    (updateCertificates Env.sample (State.initial Config.hookFails fun _ => none)
      X509Context.sample).1.w.children = [] :=
  have h := updateCertificates_with_hook Env.sample
    (State.initial Config.hookFails fun _ => none) X509Context.sample
    (fun _ => some (GoError.external "reload failed")) (by decide) rfl
  ⟨h.1, h.2.2.1⟩

/-- C13: for every update whose artifact write succeeds (bundle present, key
marshalled, three writes to three different paths succeeding) but whose reload
returns an error, whichever it is, `updateCertificates` returns normally with
the SVID, key and bundle files holding the content of this update and with one
element in the readiness channel. -/
theorem updateCertificates_reload_failure_keeps_artifacts (env : Env) (st : State)
    (ctx : X509Context) (svid : SVID) (bundle : Bundle) (der : Bytes)
    (bundles certs : List Certificate) (err : GoError)
    (hsvid : ctx.DefaultSVID = some svid)
    (hbundle : ctx.Bundles svid.ID.TrustDomain = some bundle)
    (hkey : env.marshalPKCS8PrivateKey svid.PrivateKey = Except.ok der)
    (hsplit : dumpBundles.split st.s.config.AddIntermediatesToBundle
      bundle.X509Authorities svid.Certificates = some (bundles, certs))
    (hw0 : env.writeFault st.w.writes = none)
    (hw1 : env.writeFault (st.w.writes + 1) = none)
    (hw2 : env.writeFault (st.w.writes + 2) = none)
    (hsk : svidFile env st.s.config ≠ svidKeyFile env st.s.config)
    (hsb : svidFile env st.s.config ≠ svidBundleFile env st.s.config)
    (hkb : svidKeyFile env st.s.config ≠ svidBundleFile env st.s.config)
    (hcmd : st.s.config.Cmd ≠ "")
    (_hfail : (signalProcess env (dumpBundles env st ctx).1).2 = some err)
    (hchan : chanOk st) :
    (updateCertificates env st ctx).2 = none ∧
    ((updateCertificates env st ctx).1.w.files (svidFile env st.s.config)).map File.data
      = some (pemCerts env certs) ∧
    ((updateCertificates env st ctx).1.w.files (svidKeyFile env st.s.config)).map File.data
      = some (pemKey env der) ∧
    ((updateCertificates env st ctx).1.w.files
        (svidBundleFile env st.s.config)).map File.data
      = some (pemCerts env bundles) ∧
    (updateCertificates env st ctx).1.w.writes = st.w.writes + 3 ∧
    (updateCertificates env st ctx).1.s.certReadyChan.len = 1 := by
  obtain ⟨hnil, hs, f1, f2, f3, _, hwr, _⟩ :=
    dumpBundles_ok_world env st ctx svid bundle der bundles certs hsvid hbundle hkey
      hsplit hw0 hw1 hw2 hsk hsb hkb
  obtain ⟨sf, sw⟩ := signalProcess_keeps_files env (dumpBundles env st ctx).1
  have hlen : (updateCertificates env st ctx).1.s.certReadyChan.len = 1 := by
    rw [updateCertificates_chan, if_pos hnil]
    exact (trySend_ok _ hchan.1 hchan.2).2
  rw [updateCertificates_of_nil env st ctx hnil] at *
  rw [hs] at *
  rw [if_pos hcmd] at *
  refine ⟨rfl, ?_, ?_, ?_, ?_, hlen⟩
  · show Option.map File.data ((signalProcess env (dumpBundles env st ctx).1).1.w.files _) = _
    rw [sf, f1]
    rfl
  · show Option.map File.data ((signalProcess env (dumpBundles env st ctx).1).1.w.files _) = _
    rw [sf, f2]
    rfl
  · show Option.map File.data ((signalProcess env (dumpBundles env st ctx).1).1.w.files _) = _
    rw [sf, f3]
    rfl
  · show (signalProcess env (dumpBundles env st ctx).1).1.w.writes = _
    rw [sw, hwr]

/-- Witness for C13: the sample update on a fresh sidecar whose reload callback
fails. -/
theorem updateCertificates_reload_failure_keeps_artifacts_witness :
    ((updateCertificates Env.sample (State.initial Config.hookFails fun _ => none)
        X509Context.sample).1.w.files "certs/key.pem").map File.data
      = some (pemKey Env.sample [48, 7, 7]) ∧
    (updateCertificates Env.sample (State.initial Config.hookFails fun _ => none)
        X509Context.sample).1.s.certReadyChan.len = 1 :=
  have h := updateCertificates_reload_failure_keeps_artifacts Env.sample
    (State.initial Config.hookFails fun _ => none) X509Context.sample
    { ID := { td := "example.org", path := "/workload" },
      Certificates := [⟨[1]⟩, ⟨[2]⟩, ⟨[3]⟩], PrivateKey := [7, 7] }
    { x509Authorities := [⟨[10]⟩, ⟨[11]⟩] } [48, 7, 7] [⟨[10]⟩, ⟨[11]⟩]
    [⟨[1]⟩, ⟨[2]⟩, ⟨[3]⟩]
    (GoError.wrap "error reloading external process: " (GoError.external "reload failed"))
    rfl rfl rfl rfl rfl rfl rfl (by decide) (by decide) (by decide) (by decide) rfl
    ⟨rfl, by decide⟩
  ⟨h.2.2.1, h.2.2.2.2.2⟩

/-! ## The first failing write -/

/-- C14: `dumpBundles` writes the SVID file, the key file and the bundle file in
this order and stops at the first write that fails.  For every update that
gets as far as the writes, with three different paths: if the k-th write
(k = 1, 2, 3) is the first to fail, the call returns the error of that write,
exactly k writes have been made, the files written before hold the new
content, and the files that come after are as they were. -/
theorem dumpBundles_stops_at_first_failing_write (env : Env) (st : State)
    (ctx : X509Context) (svid : SVID) (bundle : Bundle) (der : Bytes)
    (bundles certs : List Certificate) (fault : WriteFault)
    (hsvid : ctx.DefaultSVID = some svid)
    (hbundle : ctx.Bundles svid.ID.TrustDomain = some bundle)
    (hkey : env.marshalPKCS8PrivateKey svid.PrivateKey = Except.ok der)
    (hsplit : dumpBundles.split st.s.config.AddIntermediatesToBundle
      bundle.X509Authorities svid.Certificates = some (bundles, certs))
    (hsk : svidFile env st.s.config ≠ svidKeyFile env st.s.config)
    (hsb : svidFile env st.s.config ≠ svidBundleFile env st.s.config)
    (hkb : svidKeyFile env st.s.config ≠ svidBundleFile env st.s.config) :
    (env.writeFault st.w.writes = some fault →
      (dumpBundles env st ctx).2 = Ret.error fault.err ∧
      (dumpBundles env st ctx).1.w.writes = st.w.writes + 1 ∧
      (dumpBundles env st ctx).1.w.files (svidKeyFile env st.s.config)
        = st.w.files (svidKeyFile env st.s.config) ∧
      (dumpBundles env st ctx).1.w.files (svidBundleFile env st.s.config)
        = st.w.files (svidBundleFile env st.s.config)) ∧
    (env.writeFault st.w.writes = none →
      env.writeFault (st.w.writes + 1) = some fault →
      (dumpBundles env st ctx).2 = Ret.error fault.err ∧
      (dumpBundles env st ctx).1.w.writes = st.w.writes + 2 ∧
      ((dumpBundles env st ctx).1.w.files (svidFile env st.s.config)).map File.data
        = some (pemCerts env certs) ∧
      (dumpBundles env st ctx).1.w.files (svidBundleFile env st.s.config)
        = st.w.files (svidBundleFile env st.s.config)) ∧
    (env.writeFault st.w.writes = none →
      env.writeFault (st.w.writes + 1) = none →
      env.writeFault (st.w.writes + 2) = some fault →
      (dumpBundles env st ctx).2 = Ret.error fault.err ∧
      (dumpBundles env st ctx).1.w.writes = st.w.writes + 3 ∧
      ((dumpBundles env st ctx).1.w.files (svidFile env st.s.config)).map File.data
        = some (pemCerts env certs) ∧
      ((dumpBundles env st ctx).1.w.files (svidKeyFile env st.s.config)).map File.data
        = some (pemKey env der)) := by
  simp only [svidFile, svidKeyFile, svidBundleFile] at hsk hsb hkb ⊢
  refine ⟨?_, ?_, ?_⟩
  · intro h0
    unfold dumpBundles
    simp only [hsvid, hbundle, hkey, hsplit, writeCerts_eq, writeKey_eq]
    rw [WriteFile_of_some _ _ _ _ _ fault h0]
    refine ⟨rfl, rfl, ?_, ?_⟩
    · simp [Ne.symm hsk]
    · simp [Ne.symm hsb]
  · intro h0 h1
    unfold dumpBundles
    simp only [hsvid, hbundle, hkey, hsplit, writeCerts_eq, writeKey_eq]
    rw [WriteFile_of_none _ _ _ _ _ h0]
    simp only
    rw [WriteFile_of_some _ _ _ _ _ fault (by exact h1)]
    refine ⟨rfl, rfl, ?_, ?_⟩
    · simp [hsk]
    · simp [Ne.symm hsb, Ne.symm hkb]
  · intro h0 h1 h2
    unfold dumpBundles
    simp only [hsvid, hbundle, hkey, hsplit, writeCerts_eq, writeKey_eq]
    rw [WriteFile_of_none _ _ _ _ _ h0]
    simp only
    rw [WriteFile_of_none _ _ _ _ _ (by exact h1)]
    simp only
    rw [WriteFile_of_some _ _ _ _ _ fault (by exact h2)]
    refine ⟨rfl, rfl, ?_, ?_⟩
    · simp [hsk, hsb]
    · simp [hkb, Ne.symm hsk]

/-- Witness for C14: the key write of the sample update fails; the SVID file
holds the new chain and the bundle file, which did not exist, still does not. -/
theorem dumpBundles_stops_at_first_failing_write_witness :
    (dumpBundles Env.secondWriteFails (State.initial Config.sample fun _ => none)
      X509Context.sample).2 = Ret.error (GoError.external "no space left on device") ∧
    ((dumpBundles Env.secondWriteFails (State.initial Config.sample fun _ => none)
      X509Context.sample).1.w.files "certs/svid.pem").map File.data
      = some (pemCerts Env.secondWriteFails [⟨[1]⟩, ⟨[2]⟩, ⟨[3]⟩]) ∧
    (dumpBundles Env.secondWriteFails (State.initial Config.sample fun _ => none)
      X509Context.sample).1.w.files "certs/bundle.pem" = none :=
  have h := (dumpBundles_stops_at_first_failing_write Env.secondWriteFails
    (State.initial Config.sample fun _ => none) X509Context.sample
    { ID := { td := "example.org", path := "/workload" },
      Certificates := [⟨[1]⟩, ⟨[2]⟩, ⟨[3]⟩], PrivateKey := [7, 7] }
    { x509Authorities := [⟨[10]⟩, ⟨[11]⟩] } [48, 7, 7] [⟨[10]⟩, ⟨[11]⟩]
    [⟨[1]⟩, ⟨[2]⟩, ⟨[3]⟩]
    { err := GoError.external "no space left on device",
      left := some { data := [], perm := 0o600 } }
    rfl rfl rfl rfl (by decide) (by decide) (by decide)).2.1 rfl rfl
  ⟨h.1, h.2.2.1, h.2.2.2⟩

/-! ## Permission bits of the written files -/

theorem land_land_same (a b m : Nat) : (a &&& m) &&& (b &&& m) = (a &&& b) &&& m := by
  rw [Nat.and_assoc, ← Nat.and_assoc m b m, Nat.and_comm m b, Nat.and_assoc b m m,
    Nat.and_self, ← Nat.and_assoc]

theorem land_right_comm (a m z : Nat) : (a &&& m) &&& z = (a &&& z) &&& m := by
  rw [Nat.and_assoc, Nat.and_comm m z, ← Nat.and_assoc]

/-- The permission bits that new key and certificate files get, for any umask:
the key's bits are among the certificate's, none of them for group or other,
and the two differ as soon as the umask leaves a read bit of group or other. -/
theorem new_file_permissions (mask : Nat) :
    permSubset (keyFileMode &&& mask) (certsFileMode &&& mask) ∧
    (keyFileMode &&& mask) &&& 0o077 = 0 ∧
    (0o044 &&& mask ≠ 0 → keyFileMode &&& mask ≠ certsFileMode &&& mask) := by
  refine ⟨?_, ?_, ?_⟩
  · unfold permSubset
    rw [land_land_same]
    rfl
  · rw [land_right_comm]
    have : keyFileMode &&& 0o077 = 0 := by decide
    rw [this, Nat.zero_and]
  · intro h heq
    apply h
    have h1 : 0o044 &&& mask = 0o044 &&& (certsFileMode &&& mask) := by
      rw [← Nat.and_assoc]
      rfl
    have h2 : 0o044 &&& (keyFileMode &&& mask) = 0 := by
      rw [← Nat.and_assoc]
      have : 0o044 &&& keyFileMode = 0 := by decide
      rw [this, Nat.zero_and]
    rw [h1, ← heq, h2]

/-- C15 as stated fails: after a successful `dumpBundles` the key file is not
always more restricted than the SVID file.  A key file that exists already with
mode 0644 keeps that mode, and under umask 077 all three new files get mode
0600. -/
theorem dumpBundles_key_permissions_counterexample :
    (dumpBundles Env.sample (State.initial Config.sample filesWithOpenKey)
      X509Context.sample).2 = Ret.nil ∧
    ((dumpBundles Env.sample (State.initial Config.sample filesWithOpenKey)
      X509Context.sample).1.w.files "certs/key.pem").map File.perm = some 0o644 ∧
    ((dumpBundles Env.sample (State.initial Config.sample filesWithOpenKey)
      X509Context.sample).1.w.files "certs/svid.pem").map File.perm = some 0o644 ∧
    (dumpBundles { Env.sample with umask := 0o077 }
      (State.initial Config.sample fun _ => none) X509Context.sample).2 = Ret.nil ∧
    ((dumpBundles { Env.sample with umask := 0o077 }
      (State.initial Config.sample fun _ => none)
      X509Context.sample).1.w.files "certs/key.pem").map File.perm = some 0o600 ∧
    ((dumpBundles { Env.sample with umask := 0o077 }
      (State.initial Config.sample fun _ => none)
      X509Context.sample).1.w.files "certs/svid.pem").map File.perm = some 0o600 := by
  decide

/-- C15, as amended: the key is written with mode 0600 and the certificates
with mode 0644, and the bits of 0600 are a proper subset of those of 0644, none
of them for group or other.  After every successful `dumpBundles` (three
different paths) each of the three files has the permission bits it had before
when it existed, else its mode less the umask.  So when none of the three
files existed, the key file's bits are a subset of those of the SVID and bundle
files, without group or other access, and a proper subset whenever the umask
leaves a read bit of group or other. -/
theorem dumpBundles_permissions (env : Env) (st : State) (ctx : X509Context)
    (svid : SVID) (bundle : Bundle) (der : Bytes) (bundles certs : List Certificate)
    (hsvid : ctx.DefaultSVID = some svid)
    (hbundle : ctx.Bundles svid.ID.TrustDomain = some bundle)
    (hkey : env.marshalPKCS8PrivateKey svid.PrivateKey = Except.ok der)
    (hsplit : dumpBundles.split st.s.config.AddIntermediatesToBundle
      bundle.X509Authorities svid.Certificates = some (bundles, certs))
    (hw0 : env.writeFault st.w.writes = none)
    (hw1 : env.writeFault (st.w.writes + 1) = none)
    (hw2 : env.writeFault (st.w.writes + 2) = none)
    (hsk : svidFile env st.s.config ≠ svidKeyFile env st.s.config)
    (hsb : svidFile env st.s.config ≠ svidBundleFile env st.s.config)
    (hkb : svidKeyFile env st.s.config ≠ svidBundleFile env st.s.config) :
    (keyFileMode = 0o600 ∧ certsFileMode = 0o644 ∧ permSubset keyFileMode certsFileMode ∧
      keyFileMode ≠ certsFileMode ∧ keyFileMode &&& 0o077 = 0) ∧
    (((dumpBundles env st ctx).1.w.files (svidKeyFile env st.s.config)).map File.perm
        = some (permAfter env (st.w.files (svidKeyFile env st.s.config)) keyFileMode) ∧
      ((dumpBundles env st ctx).1.w.files (svidFile env st.s.config)).map File.perm
        = some (permAfter env (st.w.files (svidFile env st.s.config)) certsFileMode) ∧
      ((dumpBundles env st ctx).1.w.files (svidBundleFile env st.s.config)).map File.perm
        = some (permAfter env (st.w.files (svidBundleFile env st.s.config))
            certsFileMode)) ∧
    (st.w.files (svidKeyFile env st.s.config) = none →
      st.w.files (svidFile env st.s.config) = none →
      st.w.files (svidBundleFile env st.s.config) = none →
      ∃ keyPerm certPerm : Nat,
        ((dumpBundles env st ctx).1.w.files (svidKeyFile env st.s.config)).map File.perm
          = some keyPerm ∧
        ((dumpBundles env st ctx).1.w.files (svidFile env st.s.config)).map File.perm
          = some certPerm ∧
        ((dumpBundles env st ctx).1.w.files (svidBundleFile env st.s.config)).map File.perm
          = some certPerm ∧
        permSubset keyPerm certPerm ∧ keyPerm &&& 0o077 = 0 ∧
        (0o044 &&& (0o777 ^^^ env.umask) ≠ 0 → keyPerm ≠ certPerm)) := by
  obtain ⟨_, _, f1, f2, f3, _⟩ :=
    dumpBundles_ok_world env st ctx svid bundle der bundles certs hsvid hbundle hkey
      hsplit hw0 hw1 hw2 hsk hsb hkb
  refine ⟨⟨rfl, rfl, by unfold permSubset; decide, by decide, by decide⟩, ⟨?_, ?_, ?_⟩, ?_⟩
  · rw [f2]; rfl
  · rw [f1]; rfl
  · rw [f3]; rfl
  · intro nk ns nb
    obtain ⟨p1, p2, p3⟩ := new_file_permissions (0o777 ^^^ env.umask)
    refine ⟨keyFileMode &&& (0o777 ^^^ env.umask), certsFileMode &&& (0o777 ^^^ env.umask),
      ?_, ?_, ?_, p1, p2, p3⟩
    · rw [f2, nk]; rfl
    · rw [f1, ns]; rfl
    · rw [f3, nb]; rfl

/-- Witness for C15 as amended: the sample update written into an empty
directory under umask 022 leaves the key with mode 0600 and the SVID file with
mode 0644. -/
theorem dumpBundles_permissions_witness :
    ((dumpBundles Env.sample (State.initial Config.sample fun _ => none)
      X509Context.sample).1.w.files "certs/key.pem").map File.perm = some 0o600 ∧
    ((dumpBundles Env.sample (State.initial Config.sample fun _ => none)
      X509Context.sample).1.w.files "certs/svid.pem").map File.perm = some 0o644 :=
  have h := (dumpBundles_permissions Env.sample
    (State.initial Config.sample fun _ => none) X509Context.sample
    { ID := { td := "example.org", path := "/workload" },
      Certificates := [⟨[1]⟩, ⟨[2]⟩, ⟨[3]⟩], PrivateKey := [7, 7] }
    { x509Authorities := [⟨[10]⟩, ⟨[11]⟩] } [48, 7, 7] [⟨[10]⟩, ⟨[11]⟩]
    [⟨[1]⟩, ⟨[2]⟩, ⟨[3]⟩]
    rfl rfl rfl rfl rfl rfl rfl (by decide) (by decide) (by decide)).2.1
  ⟨h.1.trans (by decide), h.2.1.trans (by decide)⟩

/-! ## Only the first line is tokenized -/

theorem csv.Read_first_line (s1 s2 : List Char) (hne : s1 ≠ []) (hq : '"' ∉ s1)
    (hn : '\n' ∉ s1) (hr : '\r' ∉ s1) :
    csv.Read ' ' (s1 ++ '\n' :: s2) = Except.ok (s1.splitOn ' ') ∧
    csv.Read ' ' s1 = Except.ok (s1.splitOn ' ') := by
  have hs : csv.stripCR s1 = s1 := csv.stripCR_of_not_mem hr
  constructor
  · unfold csv.Read
    have hnext : csv.nextLine ((s1 ++ '\n' :: s2).length + 1) (s1 ++ '\n' :: s2)
        = some (s1 ++ ['\n'], none, s2) := by
      rw [csv.nextLine]
      simp only [csv.readLine_nl s1 s2 hn, hs]
      rw [if_neg]
      intro h
      rw [csv.lengthNL_append_nl] at h
      have := List.length_pos.mpr hne
      simp only [List.length_append, List.length_cons, List.length_nil] at h
      omega
    rw [hnext]
    simp only [reduceCtorEq, if_false]
    rw [csv.parseField_plain _ s1 ['\n'] s2 [] [] hq hn (Or.inr rfl)
      (by simp only [List.length_append, List.length_cons]; omega)]
    simp
  · unfold csv.Read
    rw [csv.nextLine_single _ s1 hn (by rw [hs]; exact hne), hs]
    simp only [reduceCtorEq, if_false]
    have := csv.parseField_plain (s1.length + 1) s1 [] [] [] [] hq hn (Or.inl rfl)
      (Nat.lt_succ_self _)
    rw [List.append_nil] at this
    rw [this]
    simp

/-- C18: `getCmdArgs` tokenizes only the first line of its input.  For every
non-empty string `s1` without double quote, line feed or carriage return and
every string `s2`, `getCmdArgs (s1 ++ "\n" ++ s2)` succeeds and returns the
same argument list as `getCmdArgs s1`, the pieces of `s1` between its spaces:
what follows the line feed is dropped without error. -/
theorem getCmdArgs_first_line_only (s1 s2 : String) (hne : s1 ≠ "")
    (hq : '"' ∉ s1.data) (hn : '\n' ∉ s1.data) (hr : '\r' ∉ s1.data) :
    getCmdArgs (s1 ++ "\n" ++ s2) = getCmdArgs s1 ∧
    getCmdArgs s1 = Except.ok ((s1.data.splitOn ' ').map String.mk) := by
  have hd : s1.data ≠ [] := by
    intro h
    apply hne
    cases s1
    simp_all
  obtain ⟨r1, r2⟩ := csv.Read_first_line s1.data s2.data hd hq hn hr
  have hdata : (s1 ++ "\n" ++ s2).data = s1.data ++ '\n' :: s2.data := by
    simp [String.data_append]
  have hne2 : s1 ++ "\n" ++ s2 ≠ "" := by
    intro h
    have := congrArg String.data h
    rw [hdata] at this
    simp at this
  have g1 : getCmdArgs s1 = Except.ok ((s1.data.splitOn ' ').map String.mk) := by
    unfold getCmdArgs
    rw [if_neg hne, r2]
  have g2 : getCmdArgs (s1 ++ "\n" ++ s2)
      = Except.ok ((s1.data.splitOn ' ').map String.mk) := by
    unfold getCmdArgs
    rw [if_neg hne2, hdata, r1]
  exact ⟨g2.trans g1.symm, g1⟩

/-- Witness for C18: the second line of `a b` / `c d` is dropped. -/
theorem getCmdArgs_first_line_only_witness :
    getCmdArgs "a b\nc d" = getCmdArgs "a b" ∧
    getCmdArgs "a b" = Except.ok ["a", "b"] :=
  have h := getCmdArgs_first_line_only "a b" "c d" (by decide) (by decide) (by decide)
    (by decide)
  ⟨h.1, h.2.trans (by decide)⟩

end SpiffeHelper
